import Mathlib

/-!
Verification of the resolution-and-caching core of the LetterBoxd dashboard
(`src/tmdb.py`) against its natural-language specification.

The embedding is a shallow one:
- JSON values are the inductive `J` (null / integer / string / array); a JSON
  object is an association list `Obj := List (String × J)` with Python `dict`
  get/set semantics (`pyget` models `d.get(k)` returning `None`, i.e. `J.null`,
  on a missing key).  Nested objects never reach any code path the claims
  depend on, so object-valued fields are not needed inside `J`.
- Python truthiness and the `int(...)` coercion are modelled by `jFalsy` and
  `pyInt`; `pyInt` is partial (`Except`) because Python raises `TypeError` /
  `ValueError` on non-coercible values.  Digit-grouping underscores and
  non-ASCII digits accepted by CPython are outside the modelled input domain.
- The remote API is a deterministic oracle `NetEnv`; `none` models a transport
  failure (a `requests` exception or `raise_for_status`).
- The thread pool of `resolve_and_fetch_credits_parallel` is modelled by
  sequential state passing: completion order is taken to be input order, the
  mutex-protected cache accesses become ordinary reads/writes of the threaded
  state.  An exception escaping a worker is re-raised by `fut.result()` in the
  aggregation loop, which aborts the function before `_save_search_cache`
  runs; this is modelled by the whole run returning `.error`.  A separate
  small-step interleaving model of two workers racing on one key is given
  further below for the concurrency claim.
- `St.search_calls` / `St.fetch_calls` instrument the number of remote calls
  performed (they correspond to no program variable).
-/

/-- JSON-ish values appearing in cache files and API payloads. -/
inductive J where
  | null : J
  | i : Int → J
  | s : String → J
  | arr : List J → J

/-- A JSON object, as stored in cache files: an association list with the
key semantics of a Python `dict` (unique keys; insertion order kept). -/
abbrev Obj := List (String × J)

/-- Association-list lookup (Python `d[k]` / `d.get(k)` on present keys). -/
def alget {κ α : Type} [DecidableEq κ] : List (κ × α) → κ → Option α
  | [], _ => none
  | (k, v) :: rest, key => if k = key then some v else alget rest key

/-- Association-list update (Python `d[k] = v`): replace in place or append. -/
def alset {κ α : Type} [DecidableEq κ] : List (κ × α) → κ → α → List (κ × α)
  | [], key, v => [(key, v)]
  | (k, w) :: rest, key, v =>
      if k = key then (k, v) :: rest else (k, w) :: alset rest key v

/-- `d.get(k)`: Python returns `None` on a missing key, and a stored JSON
`null` is also read back as `None`; both are `J.null` here. -/
def pyget (o : Obj) (k : String) : J := (alget o k).getD J.null

/-- `d.get(k, default)`. -/
def pygetD (o : Obj) (k : String) (dflt : J) : J := (alget o k).getD dflt

/-- Python truthiness of a JSON value (`None`, `0`, `""`, `[]` are falsy). -/
def jFalsy : J → Bool
  | J.null => true
  | J.i n => n == 0
  | J.s v => v == ""
  | J.arr xs => xs.isEmpty

/-- Python `x or d` specialised to the uses in the source. -/
def pyOr (v d : J) : J := if jFalsy v then d else v

/-- Errors a worker can raise: a transport failure from `requests` /
`raise_for_status`, or a Python `TypeError` / `ValueError` (notably from
`int(...)` on a non-coercible value). -/
inductive WErr where
  | transport : WErr
  | py : WErr
deriving DecidableEq

/-- Decimal digit character, `chr(48 + d)`. -/
def digit_char (d : Nat) : Char := Char.ofNat (48 + d)

/-- Decimal digits of `n`, most significant first; fuelled so that it reduces
definitionally (the fuel `n + 1` always suffices, see `nat_chars_fuel_val`). -/
def nat_chars_fuel : Nat → Nat → List Char
  | 0, _ => []
  | fuel + 1, n =>
      if n < 10 then [digit_char n]
      else nat_chars_fuel fuel (n / 10) ++ [digit_char (n % 10)]

/-- Decimal digits of a natural number, most significant first. -/
def nat_chars (n : Nat) : List Char := nat_chars_fuel (n + 1) n

/-- Python `str(y)` for an integer `y`: optional minus sign then digits. -/
def int_repr (y : Int) : String :=
  if y < 0 then ⟨'-' :: nat_chars (-y).toNat⟩ else ⟨nat_chars y.toNat⟩

/-- Numeric value of a digit list (used to invert `nat_chars`). -/
def digits_val (cs : List Char) : Nat :=
  cs.foldl (fun a c => a * 10 + (c.toNat - 48)) 0

/-- Python `int(v)` for a string `v`: strip whitespace, optional sign, then
a non-empty run of decimal digits; anything else raises. -/
def py_int_string (v : String) : Option Int :=
  let parse : List Char → Option Nat := fun cs =>
    if cs.isEmpty then none
    else if cs.all Char.isDigit then some (digits_val cs) else none
  match (((v.data.dropWhile Char.isWhitespace).reverse.dropWhile
      Char.isWhitespace).reverse) with
  | '-' :: rest => (parse rest).map (fun n => -(n : Int))
  | '+' :: rest => (parse rest).map (fun n => (n : Int))
  | cs => (parse cs).map (fun n => (n : Int))

/-- Python `int(x)` on a JSON value: identity on integers, decimal parse on
strings, raising (`.error .py`) on anything else. -/
def pyInt : J → Except WErr Int
  | J.i n => Except.ok n
  | J.s v =>
      match py_int_string v with
      | some n => Except.ok n
      | none => Except.error WErr.py
  | _ => Except.error WErr.py

/-- Python `o[k]`: `KeyError` (modelled as `.error .py`) on a missing key. -/
def subscr (o : Obj) (k : String) : Except WErr J :=
  match alget o k with
  | some v => Except.ok v
  | none => Except.error WErr.py

/-- Python `str.strip()` at the character-list level (ASCII whitespace). -/
def py_strip (cs : List Char) : List Char :=
  ((cs.dropWhile Char.isWhitespace).reverse.dropWhile Char.isWhitespace).reverse

/-- Python `str.lower()` at the character-list level (ASCII case folding). -/
def py_lower (cs : List Char) : List Char := cs.map Char.toLower

/-- `title.strip().lower()` — the normalized title used by the cache key. -/
def norm_title (title : String) : String := ⟨py_lower (py_strip title.data)⟩

/-- The year part of the cache key: `str(year)` or the empty string. -/
def year_field : Option Int → String
  | some y => int_repr y
  | none => ""

/-- `_search_cache_key` (src/tmdb.py:47-49):
`f"{title.strip().lower()}|{year if year is not None else ''}"`. -/
def search_cache_key (title : String) (year : Option Int) : String :=
  norm_title title ++ "|" ++ year_field year

/-- `_title_cache_path` (src/tmdb.py:52-55) reduced to the cache key it
determines: the file `{safe_type}_{tmdb_id}.json` is addressed by the pair
`(safe_type, tmdb_id)` where `safe_type = "tv" if media_type == "tv" else
"movie"`. -/
def title_cache_path (media_type : String) (tmdb_id : Int) : String × Int :=
  (if media_type = "tv" then "tv" else "movie", tmdb_id)

/-- In-memory model of the process state threaded through a batch: the
search-resolution cache (`search_cache.json`), the per-record cache (the
`.cache/titles` directory), plus instrumentation counting performed remote
search and fetch calls. -/
structure St where
  search_cache : List (String × Obj)
  title_cache : List ((String × Int) × Obj)
  search_calls : Nat
  fetch_calls : Nat

/-- Cold-start state: empty caches, no calls made. -/
def stEmpty : St := ⟨[], [], 0, 0⟩

/-- Replace the search cache of a state. -/
def St.withSC (st : St) (sc : List (String × Obj)) : St :=
  ⟨sc, st.title_cache, st.search_calls, st.fetch_calls⟩

/-- Record one remote search call. -/
def St.bumpSearch (st : St) : St :=
  ⟨st.search_cache, st.title_cache, st.search_calls + 1, st.fetch_calls⟩

/-- Store a record and count the remote fetch that produced it. -/
def St.saveTitle (st : St) (key : String × Int) (payload : Obj) : St :=
  ⟨st.search_cache, alset st.title_cache key payload,
    st.search_calls, st.fetch_calls + 1⟩

/-- Deterministic oracle for the remote catalog API.  `search title` is the
`results` array of `GET /search/multi` (elements are JSON objects); `fetch
media_type id` is the payload of `GET /{media_type}/{id}`.  `none` models a
transport failure.  Determinism (same query, same answer) is the standing
assumption under which the cache-coherence claims are stated. -/
structure NetEnv where
  search : String → Option (List Obj)
  fetch : String → Int → Option Obj

/-- The filter of `search_multi` (src/tmdb.py:90):
`x.get("media_type") in ("movie", "tv")` — a tuple-membership test, i.e.
equality against `"movie"` or `"tv"` (a non-string value equals neither). -/
def is_movie_or_tv (x : Obj) : Bool :=
  match pyget x "media_type" with
  | J.s str => str == "movie" || str == "tv"
  | _ => false

/-- `search_multi` (src/tmdb.py:77-90): one remote search call, keeping only
movie/tv results. -/
def search_multi (env : NetEnv) (st : St) (title : String) :
    Except WErr (List Obj × St) :=
  match env.search title with
  | none => Except.error WErr.transport
  | some results => Except.ok (results.filter is_movie_or_tv, st.bumpSearch)

/-- The date string examined by `_pick_best_result`:
`r.get("release_date") or ""` (resp. `first_air_date`).  A falsy value gives
`""`; a truthy non-string later raises on `len`/slicing, modelled here as an
immediate `.error .py`. -/
def py_date_str (v : J) : Except WErr String :=
  if jFalsy v then Except.ok ""
  else
    match v with
    | J.s sv => Except.ok sv
    | _ => Except.error WErr.py

/-- `len(d) >= 4 and d[:4].isdigit() and int(d[:4]) == int(year)`
(src/tmdb.py:111). -/
def year_matches (d : String) (y : Int) : Bool :=
  let p := d.data.take 4
  decide (4 ≤ d.data.length) && p.all Char.isDigit && ((digits_val p : Int) == y)

/-- The `for r in results` loop of `_pick_best_result` (src/tmdb.py:105-112):
return the identity of the first candidate whose release year (movie:
`release_date`, otherwise `first_air_date`) matches the hint. -/
def pick_year_scan (y : Int) : List Obj → Except WErr (Option (J × Int))
  | [] => Except.ok none
  | r :: rest =>
      let mtJ := pyget r "media_type"
      let dJ := match mtJ with
        | J.s "movie" => pyget r "release_date"
        | _ => pyget r "first_air_date"
      match py_date_str dJ with
      | Except.error e => Except.error e
      | Except.ok d =>
          if year_matches d y then
            match subscr r "id" with
            | Except.error e => Except.error e
            | Except.ok idv =>
                match pyInt idv with
                | Except.error e => Except.error e
                | Except.ok n => Except.ok (some (mtJ, n))
          else pick_year_scan y rest

/-- `_pick_best_result` (src/tmdb.py:93-115). -/
def pick_best_result (results : List Obj) (year : Option Int) :
    Except WErr (Option (J × Int)) :=
  match results with
  | [] => Except.ok none
  | top :: _ =>
      let scanned : Except WErr (Option (J × Int)) :=
        match year with
        | some y => pick_year_scan y results
        | none => Except.ok none
      match scanned with
      | Except.error e => Except.error e
      | Except.ok (some p) => Except.ok (some p)
      | Except.ok none =>
          match subscr top "id" with
          | Except.error e => Except.error e
          | Except.ok idv =>
              match pyInt idv with
              | Except.error e => Except.error e
              | Except.ok n =>
                  Except.ok (some (pygetD top "media_type" (J.s "movie"), n))

/-- The scan of `payload['episode_run_time']`: first strictly positive
integer element, else 0. -/
def first_pos_int : List J → Int
  | [] => 0
  | J.i n :: rest => if 0 < n then n else first_pos_int rest
  | _ :: rest => first_pos_int rest

/-- `_normalized_runtime_minutes` (src/tmdb.py:118-134). -/
def normalized_runtime_minutes (payload : Obj) (media_type : String) : Int :=
  if media_type = "movie" then
    match pyget payload "runtime" with
    | J.i n => if 0 < n then n else 0
    | _ => 0
  else
    match pyOr (pyget payload "episode_run_time") (J.arr []) with
    | J.arr xs => first_pos_int xs
    | _ => 0

/-- The two augmentation lines of `title_with_credits` (src/tmdb.py:157-158):
`payload["_media_type"] = media_type` then
`payload["_normalized_runtime"] = _normalized_runtime_minutes(payload, media_type)`
(the second line sees the payload already carrying `_media_type`). -/
def augment (payload : Obj) (media_type : String) : Obj :=
  let p1 := alset payload "_media_type" (J.s media_type)
  alset p1 "_normalized_runtime" (J.i (normalized_runtime_minutes p1 media_type))

/-- `title_with_credits` (src/tmdb.py:137-161): record-cache hit returns the
cached payload with no remote call; a miss performs one remote fetch,
augments the payload with `_media_type` and `_normalized_runtime`, persists
it, and returns it. -/
def title_with_credits (env : NetEnv) (st : St) (media_type : String)
    (tmdb_id : Int) : Except WErr (Obj × St) :=
  match alget st.title_cache (title_cache_path media_type tmdb_id) with
  | some cached => Except.ok (cached, st)
  | none =>
      match env.fetch media_type tmdb_id with
      | none => Except.error WErr.transport
      | some payload =>
          Except.ok (augment payload media_type,
            st.saveTitle (title_cache_path media_type tmdb_id)
              (augment payload media_type))

/-- Outcome of one query's unit of work. -/
inductive Outcome where
  | matched : Obj → Outcome
  | no_match : String → Option Int → Outcome

/-- The search-cache entry the worker writes:
`{"media_type": mtJ, "id": int(tmdb_id)}`. -/
def mk_entry (mtJ : J) (tmdb_id : Int) : Obj :=
  [("media_type", mtJ), ("id", J.i tmdb_id)]

/-- Lines 201-205 of the worker: `if not tmdb_id or media_type not in
("movie", "tv"): return NO_MATCH`, else fetch the full record. -/
def after_resolve (env : NetEnv) (st : St) (title : String) (year : Option Int)
    (mtJ : J) (tmdb_id : Int) : Except WErr (Outcome × St) :=
  if tmdb_id = 0 then Except.ok (Outcome.no_match title year, st)
  else
    match mtJ with
    | J.s mt =>
        if mt = "movie" ∨ mt = "tv" then
          match title_with_credits env st mt tmdb_id with
          | Except.error e => Except.error e
          | Except.ok (p, st') => Except.ok (Outcome.matched p, st')
        else Except.ok (Outcome.no_match title year, st)
    | _ => Except.ok (Outcome.no_match title year, st)

/-- `worker` (src/tmdb.py:180-205), with the lock-protected cache accesses
appearing as ordinary accesses to the threaded state. -/
def worker (env : NetEnv) (st : St) (title : String) (year : Option Int) :
    Except WErr (Outcome × St) :=
  let key := search_cache_key title year
  match alget st.search_cache key with
  | none =>
      match search_multi env st title with
      | Except.error e => Except.error e
      | Except.ok (results, st1) =>
          match pick_best_result results year with
          | Except.error e => Except.error e
          | Except.ok none =>
              Except.ok (Outcome.no_match title year,
                st1.withSC (alset st1.search_cache key (mk_entry J.null 0)))
          | Except.ok (some (mtJ, tmdb_id)) =>
              after_resolve env
                (st1.withSC (alset st1.search_cache key (mk_entry mtJ tmdb_id)))
                title year mtJ tmdb_id
  | some cached =>
      let mtJ := pyget cached "media_type"
      match pyInt (pyOr (pyget cached "id") (J.i 0)) with
      | Except.error e => Except.error e
      | Except.ok tmdb_id => after_resolve env st title year mtJ tmdb_id

/-- The submit-and-collect loop of `resolve_and_fetch_credits_parallel`
(src/tmdb.py:207-216), with completion order modelled as input order.
`fut.result()` re-raises a worker's exception, aborting the whole loop:
modelled by the run returning that error. -/
def run_workers (env : NetEnv) (st : St) :
    List (String × Option Int) →
    Except WErr (List Obj × List (String × Option Int) × St)
  | [] => Except.ok ([], [], st)
  | (t, y) :: rest =>
      match worker env st t y with
      | Except.error e => Except.error e
      | Except.ok (o, st') =>
          match run_workers env st' rest with
          | Except.error e => Except.error e
          | Except.ok (items, nm, stF) =>
              match o with
              | Outcome.matched p => Except.ok (p :: items, nm, stF)
              | Outcome.no_match t' y' => Except.ok (items, (t', y') :: nm, stF)

/-- `resolve_and_fetch_credits_parallel` (src/tmdb.py:164-218).  On success
the returned state's `search_cache` is what `_save_search_cache` persists at
batch end; on a worker exception the function raises before the save, so no
collections are returned and nothing is persisted — modelled by `.error`. -/
def resolve_and_fetch_credits_parallel (env : NetEnv) (st : St)
    (queries : List (String × Option Int)) :
    Except WErr (List Obj × List (String × Option Int) × St) :=
  run_workers env st queries

/-! ## Basic association-list lemmas -/

theorem alget_alset {κ α : Type} [DecidableEq κ] (l : List (κ × α)) (k : κ)
    (v : α) (k' : κ) :
    alget (alset l k v) k' = if k = k' then some v else alget l k' := by
  induction l with
  | nil => by_cases h : k = k' <;> simp [alset, alget, h]
  | cons hd tl ih =>
      obtain ⟨a, w⟩ := hd
      by_cases hak : a = k
      · subst hak
        by_cases h : a = k' <;> simp [alset, alget, h]
      · by_cases h : a = k'
        · subst h
          have hka : ¬k = a := fun hh => hak hh.symm
          simp [alset, alget, hak, hka]
        · simp [alset, alget, hak, h, ih]

/-! ## C6 — runtime normalization -/

/-- `first_pos_int` returns the first strictly positive integer of the list
(in scan order), and `0` when there is none. -/
theorem first_pos_int_eq_find (xs : List J) :
    first_pos_int xs =
      (match xs.find? (fun x => match x with | J.i n => decide (0 < n) | _ => false) with
       | some (J.i n) => n
       | _ => 0) := by
  induction xs with
  | nil => rfl
  | cons hd tl ih =>
      cases hd with
      | i n =>
          by_cases h : 0 < n
          · simp [first_pos_int, List.find?, h]
          · simp [first_pos_int, List.find?, h, ih]
      | null => simpa [first_pos_int, List.find?] using ih
      | s v => simpa [first_pos_int, List.find?] using ih
      | arr l => simpa [first_pos_int, List.find?] using ih

/-- C6: `normalizedRuntimeMinutes` for a movie record equals the `runtime`
field when that field is a strictly positive integer and `0` otherwise
(missing, non-integer, zero, negative); for a series record it equals the
first strictly positive integer of the `episode_run_time` list in scan
order, and `0` when there is none. -/
theorem normalized_runtime_minutes_spec (payload : Obj) :
    (∀ n : Int, pyget payload "runtime" = J.i n → 0 < n →
        normalized_runtime_minutes payload "movie" = n) ∧
    ((∀ n : Int, pyget payload "runtime" = J.i n → n ≤ 0) →
        normalized_runtime_minutes payload "movie" = 0) ∧
    (∀ xs : List J, pyget payload "episode_run_time" = J.arr xs →
        normalized_runtime_minutes payload "tv" =
          (match xs.find? (fun x => match x with | J.i n => decide (0 < n) | _ => false) with
           | some (J.i n) => n
           | _ => 0)) := by
  refine ⟨?_, ?_, ?_⟩
  · intro n hn hpos
    simp [normalized_runtime_minutes, hn, hpos]
  · intro hle
    cases hrt : pyget payload "runtime" with
    | i n =>
        have := hle n hrt
        simp [normalized_runtime_minutes, hrt]
        omega
    | null => simp [normalized_runtime_minutes, hrt]
    | s v => simp [normalized_runtime_minutes, hrt]
    | arr l => simp [normalized_runtime_minutes, hrt]
  · intro xs hxs
    rw [← first_pos_int_eq_find]
    by_cases hempty : xs.isEmpty
    · cases xs with
      | nil => simp [normalized_runtime_minutes, hxs, pyOr, jFalsy, first_pos_int]
      | cons a l => simp [List.isEmpty] at hempty
    · simp [normalized_runtime_minutes, hxs, pyOr, jFalsy, hempty]

/-- C6 witness: a series with runtimes `[0, 0, 45, 30]` yields `45`; a movie
with `runtime = -5`, and a movie with no runtime at all, yield `0`. -/
theorem normalized_runtime_minutes_spec_witness :
    normalized_runtime_minutes
        [("episode_run_time", J.arr [J.i 0, J.i 0, J.i 45, J.i 30])] "tv" = 45 ∧
    normalized_runtime_minutes [("runtime", J.i (-5))] "movie" = 0 ∧
    normalized_runtime_minutes [] "movie" = 0 := by
  refine ⟨?_, ?_, ?_⟩
  · have h := (normalized_runtime_minutes_spec
      [("episode_run_time", J.arr [J.i 0, J.i 0, J.i 45, J.i 30])]).2.2
      [J.i 0, J.i 0, J.i 45, J.i 30] rfl
    rw [h]
    rfl
  · refine (normalized_runtime_minutes_spec [("runtime", J.i (-5))]).2.1 ?_
    intro n hn
    have : J.i (-5) = J.i n := hn
    injection this with h
    omega
  · refine (normalized_runtime_minutes_spec []).2.1 ?_
    intro n hn
    exact absurd hn (by simp [pyget, alget])

/-! ## C4 — record-cache discipline of `title_with_credits` -/

/-- C4: `title_with_credits` first consults the record cache at
`(mediaType, id)`: on a hit it returns the cached record with no network
call and no state change; on a miss it performs exactly one remote call
(`fetch_calls` grows by one, a transport failure surfaces as an error),
augments the payload with `_media_type` and `_normalized_runtime`, persists
the augmented record at that key, and returns it. -/
theorem title_with_credits_cache_spec (env : NetEnv) (st : St)
    (mt : String) (i : Int) :
    (∀ p : Obj, alget st.title_cache (title_cache_path mt i) = some p →
        title_with_credits env st mt i = Except.ok (p, st)) ∧
    (alget st.title_cache (title_cache_path mt i) = none →
      (env.fetch mt i = none →
          title_with_credits env st mt i = Except.error WErr.transport) ∧
      (∀ raw : Obj, env.fetch mt i = some raw →
          title_with_credits env st mt i =
            Except.ok (augment raw mt,
              ⟨st.search_cache,
               alset st.title_cache (title_cache_path mt i) (augment raw mt),
               st.search_calls, st.fetch_calls + 1⟩))) := by
  refine ⟨?_, ?_⟩
  · intro p hp
    simp [title_with_credits, hp]
  · intro hmiss
    refine ⟨?_, ?_⟩
    · intro hfail
      simp [title_with_credits, hmiss, hfail]
    · intro raw hraw
      simp [title_with_credits, hmiss, hraw, St.saveTitle]

/-- C4 witness: a concrete hit returns the cached record unchanged; a
concrete miss fetches once, augments, persists and returns. -/
theorem title_with_credits_cache_spec_witness :
    title_with_credits
        ⟨fun _ => none, fun _ _ => some [("runtime", J.i 100)]⟩
        ⟨[], [(("movie", 3), [("title", J.s "c")])], 0, 0⟩ "movie" 3
      = Except.ok ([("title", J.s "c")],
          ⟨[], [(("movie", 3), [("title", J.s "c")])], 0, 0⟩) ∧
    title_with_credits
        ⟨fun _ => none, fun _ _ => some [("runtime", J.i 100)]⟩
        stEmpty "movie" 3
      = Except.ok
          ([("runtime", J.i 100), ("_media_type", J.s "movie"),
            ("_normalized_runtime", J.i 100)],
           ⟨[], [(("movie", 3),
              [("runtime", J.i 100), ("_media_type", J.s "movie"),
               ("_normalized_runtime", J.i 100)])], 0, 1⟩) := by
  constructor
  · exact (title_with_credits_cache_spec
      ⟨fun _ => none, fun _ _ => some [("runtime", J.i 100)]⟩
      ⟨[], [(("movie", 3), [("title", J.s "c")])], 0, 0⟩ "movie" 3).1
      [("title", J.s "c")] rfl
  · exact ((title_with_credits_cache_spec
      ⟨fun _ => none, fun _ _ => some [("runtime", J.i 100)]⟩
      stEmpty "movie" 3).2 rfl).2 [("runtime", J.i 100)] rfl

/-! ## C3 — candidate selection policy of `_pick_best_result` -/

/-- The date value `_pick_best_result` examines for a candidate: the release
date for a movie, the first-air date otherwise. -/
def candidate_date (r : Obj) : J :=
  match pyget r "media_type" with
  | J.s "movie" => pyget r "release_date"
  | _ => pyget r "first_air_date"

/-- `int(r["id"])` for a candidate. -/
def cand_id (r : Obj) : Except WErr Int :=
  match subscr r "id" with
  | Except.error e => Except.error e
  | Except.ok v => pyInt v

/-- Total view of `int(r["id"])` on candidates where the coercion succeeds. -/
def cand_id_val (r : Obj) : Int :=
  match cand_id r with
  | Except.ok n => n
  | Except.error _ => 0

/-- "This candidate's release year exactly equals the hint": date string
present, first four characters digits, value equal to the year. -/
def cand_year_match (y : Int) (r : Obj) : Bool :=
  match py_date_str (candidate_date r) with
  | Except.ok d => year_matches d y
  | Except.error _ => false

/-- The fallback identity `_pick_best_result` returns when no year matched:
the first candidate's `(media_type, id)`, with the `"movie"` default of
`top.get("media_type", "movie")`. -/
def top_identity : List Obj → Option (J × Int)
  | [] => none
  | top :: _ => some (pygetD top "media_type" (J.s "movie"), cand_id_val top)

/-- Candidates on which the Python code cannot raise: the examined date
field is absent, falsy or a string, and the `id` field coerces to an
integer. -/
def cand_wf (r : Obj) : Prop :=
  (∃ d : String, py_date_str (candidate_date r) = Except.ok d) ∧
  ∃ n : Int, cand_id r = Except.ok n

/-- Inversion of a successful `int(r["id"])`. -/
theorem cand_id_inv (r : Obj) (n : Int) (h : cand_id r = Except.ok n) :
    ∃ v : J, subscr r "id" = Except.ok v ∧ pyInt v = Except.ok n := by
  unfold cand_id at h
  cases hsub : subscr r "id" with
  | error e => rw [hsub] at h; exact Except.noConfusion h
  | ok v => rw [hsub] at h; exact ⟨v, rfl, h⟩

/-- One unfolding step of the year-scan loop, phrased through
`candidate_date`. -/
theorem pick_year_scan_cons (y : Int) (hd : Obj) (tl : List Obj) :
    pick_year_scan y (hd :: tl) =
      match py_date_str (candidate_date hd) with
      | Except.error e => Except.error e
      | Except.ok d =>
          if year_matches d y then
            match subscr hd "id" with
            | Except.error e => Except.error e
            | Except.ok idv =>
                match pyInt idv with
                | Except.error e => Except.error e
                | Except.ok n => Except.ok (some (pyget hd "media_type", n))
          else pick_year_scan y tl := rfl

/-- One unfolding step of `_pick_best_result` on a non-empty list. -/
theorem pick_best_result_cons (top : Obj) (tl : List Obj) (year : Option Int) :
    pick_best_result (top :: tl) year =
      match (match year with
             | some y => pick_year_scan y (top :: tl)
             | none => Except.ok none) with
      | Except.error e => Except.error e
      | Except.ok (some p) => Except.ok (some p)
      | Except.ok none =>
          match subscr top "id" with
          | Except.error e => Except.error e
          | Except.ok idv =>
              match pyInt idv with
              | Except.error e => Except.error e
              | Except.ok n =>
                  Except.ok (some (pygetD top "media_type" (J.s "movie"), n))
    := rfl

/-- The year-scan loop returns the identity of the first candidate matching
the year hint, and `none` when no candidate matches. -/
theorem pick_year_scan_eq_find (y : Int) (results : List Obj)
    (hwf : ∀ r ∈ results, cand_wf r) :
    pick_year_scan y results =
      Except.ok ((results.find? (cand_year_match y)).map
        (fun r => (pyget r "media_type", cand_id_val r))) := by
  induction results with
  | nil => rfl
  | cons hd tl ih =>
      obtain ⟨⟨d, hd_ok⟩, n, hn_ok⟩ := hwf hd (List.mem_cons_self hd tl)
      have htl : ∀ r ∈ tl, cand_wf r := fun r hr =>
        hwf r (List.mem_cons_of_mem hd hr)
      obtain ⟨v, hv, hvInt⟩ := cand_id_inv hd n hn_ok
      have hval : cand_id_val hd = n := by simp [cand_id_val, hn_ok]
      rw [pick_year_scan_cons, hd_ok]
      by_cases hmatch : year_matches d y
      · have hcm : cand_year_match y hd = true := by
          simp [cand_year_match, hd_ok, hmatch]
        simp [hmatch, hv, hvInt, List.find?, hcm, hval]
      · have hcm : cand_year_match y hd = false := by
          simp [cand_year_match, hd_ok, hmatch]
        simp [hmatch, List.find?, hcm, ih htl]

/-- C3: `pickBest` on the empty list returns no result; with a year hint it
scans candidates in their original order and returns the identity of the
first candidate whose release year (movie: release date, series: first-air
date, comparable only when the first four characters are digits) exactly
equals the year; with no hint, or when no candidate matches, it returns the
first candidate's identity. -/
theorem pick_best_result_spec (results : List Obj) (year : Option Int)
    (hwf : ∀ r ∈ results, cand_wf r) :
    (results = [] → pick_best_result results year = Except.ok none) ∧
    (∀ y : Int, year = some y →
        pick_best_result results year =
          Except.ok (match results.find? (cand_year_match y) with
            | some r => some (pyget r "media_type", cand_id_val r)
            | none => top_identity results)) ∧
    (year = none →
        pick_best_result results year = Except.ok (top_identity results)) := by
  refine ⟨?_, ?_, ?_⟩
  · intro h
    subst h
    rfl
  · intro y hy
    subst hy
    cases results with
    | nil => rfl
    | cons top tl =>
        obtain ⟨⟨d, hd_ok⟩, n, hn_ok⟩ := hwf top (List.mem_cons_self top tl)
        obtain ⟨v, hv, hvInt⟩ := cand_id_inv top n hn_ok
        have hval : cand_id_val top = n := by simp [cand_id_val, hn_ok]
        rw [pick_best_result_cons]
        rw [show (match some y with
             | some y => pick_year_scan y (top :: tl)
             | none => Except.ok none) = pick_year_scan y (top :: tl) from rfl]
        rw [pick_year_scan_eq_find y (top :: tl) hwf]
        cases hfind : (top :: tl).find? (cand_year_match y) with
        | some r => simp [hfind]
        | none => simp [hfind, hv, hvInt, top_identity, hval]
  · intro hy
    subst hy
    cases results with
    | nil => rfl
    | cons top tl =>
        obtain ⟨⟨d, hd_ok⟩, n, hn_ok⟩ := hwf top (List.mem_cons_self top tl)
        obtain ⟨v, hv, hvInt⟩ := cand_id_inv top n hn_ok
        have hval : cand_id_val top = n := by simp [cand_id_val, hn_ok]
        rw [pick_best_result_cons]
        simp [hv, hvInt, top_identity, hval]

/-- C3 witness: with a year hint and a list where only the second candidate
matches the year, the second candidate's identity is returned, not the
first's; and with no hint the first candidate's identity is returned. -/
theorem pick_best_result_spec_witness :
    pick_best_result
        [[("media_type", J.s "movie"), ("id", J.i 1),
          ("release_date", J.s "2010-07-15")],
         [("media_type", J.s "tv"), ("id", J.i 7),
          ("first_air_date", J.s "1999-01-01")]]
        (some 1999)
      = Except.ok (some (J.s "tv", 7)) ∧
    pick_best_result
        [[("media_type", J.s "movie"), ("id", J.i 1),
          ("release_date", J.s "2010-07-15")],
         [("media_type", J.s "tv"), ("id", J.i 7),
          ("first_air_date", J.s "1999-01-01")]]
        none
      = Except.ok (some (J.s "movie", 1)) := by
  have hwf : ∀ r ∈ [[("media_type", J.s "movie"), ("id", J.i 1),
          ("release_date", J.s "2010-07-15")],
         [("media_type", J.s "tv"), ("id", J.i 7),
          ("first_air_date", J.s "1999-01-01")]], cand_wf r := by
    intro r hr
    simp only [List.mem_cons, List.not_mem_nil, or_false] at hr
    rcases hr with rfl | rfl
    · exact ⟨⟨"2010-07-15", rfl⟩, 1, rfl⟩
    · exact ⟨⟨"1999-01-01", rfl⟩, 7, rfl⟩
  constructor
  · have h := (pick_best_result_spec _ (some 1999) hwf).2.1 1999 rfl
    rw [h]
    rfl
  · have h := (pick_best_result_spec _ none hwf).2.2 rfl
    rw [h]
    rfl

/-! ## C5 — the search cache key is a bijective encoding of
(normalized title, year) -/

theorem digit_char_toNat (d : Nat) (h : d < 10) :
    (digit_char d).toNat = 48 + d := by
  interval_cases d <;> decide

theorem nat_chars_fuel_digits (fuel n : Nat) (h : n < fuel) :
    ∀ c ∈ nat_chars_fuel fuel n, ∃ d, d < 10 ∧ c = digit_char d := by
  induction fuel generalizing n with
  | zero => omega
  | succ f ih =>
      intro c hc
      unfold nat_chars_fuel at hc
      by_cases hn : n < 10
      · rw [if_pos hn] at hc
        simp at hc
        exact ⟨n, hn, hc⟩
      · rw [if_neg hn] at hc
        rcases List.mem_append.mp hc with h1 | h2
        · refine ih (n / 10) ?_ c h1
          have := Nat.div_lt_self (show 0 < n by omega) (show 1 < 10 by omega)
          omega
        · simp at h2
          exact ⟨n % 10, Nat.mod_lt _ (by omega), h2⟩

theorem digits_val_append (l : List Char) (c : Char) :
    digits_val (l ++ [c]) = digits_val l * 10 + (c.toNat - 48) := by
  simp [digits_val, List.foldl_append]

theorem nat_chars_fuel_val (fuel n : Nat) (h : n < fuel) :
    digits_val (nat_chars_fuel fuel n) = n := by
  induction fuel generalizing n with
  | zero => omega
  | succ f ih =>
      unfold nat_chars_fuel
      by_cases hn : n < 10
      · rw [if_pos hn]
        simp [digits_val, digit_char_toNat n hn]
      · rw [if_neg hn]
        rw [digits_val_append]
        rw [ih (n / 10) (by
          have := Nat.div_lt_self (show 0 < n by omega) (show 1 < 10 by omega)
          omega)]
        rw [digit_char_toNat (n % 10) (Nat.mod_lt _ (by omega))]
        omega

theorem digits_val_nat_chars (n : Nat) : digits_val (nat_chars n) = n :=
  nat_chars_fuel_val (n + 1) n (Nat.lt_succ_self n)

theorem nat_chars_inj (m n : Nat) (h : nat_chars m = nat_chars n) : m = n := by
  have := congrArg digits_val h
  rwa [digits_val_nat_chars, digits_val_nat_chars] at this

theorem nat_chars_digits (n : Nat) :
    ∀ c ∈ nat_chars n, ∃ d, d < 10 ∧ c = digit_char d :=
  nat_chars_fuel_digits (n + 1) n (Nat.lt_succ_self n)

theorem nat_chars_ne_nil (n : Nat) : nat_chars n ≠ [] := by
  unfold nat_chars nat_chars_fuel
  by_cases hn : n < 10 <;> simp [hn]

theorem nat_chars_no_bar (n : Nat) : ∀ c ∈ nat_chars n, c ≠ '|' := by
  intro c hc
  obtain ⟨d, hd, rfl⟩ := nat_chars_digits n c hc
  intro hbar
  have := congrArg Char.toNat hbar
  rw [digit_char_toNat d hd] at this
  simp at this
  omega

theorem nat_chars_no_dash (n : Nat) : ∀ c ∈ nat_chars n, c ≠ '-' := by
  intro c hc
  obtain ⟨d, hd, rfl⟩ := nat_chars_digits n c hc
  intro hdash
  have := congrArg Char.toNat hdash
  rw [digit_char_toNat d hd] at this
  simp at this
  omega

theorem int_repr_data (y : Int) :
    (int_repr y).data =
      if y < 0 then '-' :: nat_chars (-y).toNat else nat_chars y.toNat := by
  unfold int_repr
  by_cases h : y < 0 <;> simp [h]

theorem int_repr_inj (a b : Int) (h : int_repr a = int_repr b) : a = b := by
  have hdata := congrArg String.data h
  rw [int_repr_data, int_repr_data] at hdata
  by_cases ha : a < 0 <;> by_cases hb : b < 0
  · rw [if_pos ha, if_pos hb] at hdata
    have := nat_chars_inj _ _ (List.cons_injective.eq_iff.mp hdata)
    omega
  · rw [if_pos ha, if_neg hb] at hdata
    exfalso
    have hmem : '-' ∈ nat_chars b.toNat := by
      rw [← hdata]; exact List.mem_cons_self _ _
    exact nat_chars_no_dash b.toNat '-' hmem rfl
  · rw [if_neg ha, if_pos hb] at hdata
    exfalso
    have hmem : '-' ∈ nat_chars a.toNat := by
      rw [hdata]; exact List.mem_cons_self _ _
    exact nat_chars_no_dash a.toNat '-' hmem rfl
  · rw [if_neg ha, if_neg hb] at hdata
    have := nat_chars_inj _ _ hdata
    omega

theorem int_repr_data_ne_nil (y : Int) : (int_repr y).data ≠ [] := by
  rw [int_repr_data]
  by_cases h : y < 0
  · simp [h]
  · simpa [h] using nat_chars_ne_nil y.toNat

theorem int_repr_no_bar (y : Int) : ∀ c ∈ (int_repr y).data, c ≠ '|' := by
  rw [int_repr_data]
  by_cases h : y < 0
  · rw [if_pos h]
    intro c hc
    rcases List.mem_cons.mp hc with rfl | hmem
    · decide
    · exact nat_chars_no_bar _ c hmem
  · rw [if_neg h]
    exact nat_chars_no_bar _

theorem year_field_no_bar (y : Option Int) :
    ∀ c ∈ (year_field y).data, c ≠ '|' := by
  cases y with
  | none => intro c hc; exact absurd hc (by simp [year_field])
  | some v => exact int_repr_no_bar v

theorem year_field_inj (y1 y2 : Option Int)
    (h : year_field y1 = year_field y2) : y1 = y2 := by
  cases y1 with
  | none =>
      cases y2 with
      | none => rfl
      | some v =>
          exfalso
          have := congrArg String.data h
          simp only [year_field] at this
          exact int_repr_data_ne_nil v (by simpa using this.symm)
  | some u =>
      cases y2 with
      | none =>
          exfalso
          have := congrArg String.data h
          simp only [year_field] at this
          exact int_repr_data_ne_nil u (by simpa using this)
      | some v => rw [int_repr_inj u v h]

/-- Splitting a string at its last separator: if neither suffix contains the
separator, the decomposition `prefix ++ sep :: suffix` is unique. -/
theorem sep_split (t1 t2 s1 s2 : List Char)
    (h1 : ∀ c ∈ s1, c ≠ '|') (h2 : ∀ c ∈ s2, c ≠ '|')
    (h : t1 ++ '|' :: s1 = t2 ++ '|' :: s2) : t1 = t2 ∧ s1 = s2 := by
  induction t1 generalizing t2 with
  | nil =>
      cases t2 with
      | nil => simpa using h
      | cons c t2' =>
          exfalso
          simp only [List.nil_append, List.cons_append, List.cons.injEq] at h
          obtain ⟨hc, hrest⟩ := h
          refine h1 '|' ?_ rfl
          rw [hrest]
          exact List.mem_append_right _ (List.mem_cons_self _ _)
  | cons c t1' ih =>
      cases t2 with
      | nil =>
          exfalso
          simp only [List.nil_append, List.cons_append, List.cons.injEq] at h
          obtain ⟨hc, hrest⟩ := h
          refine h2 '|' ?_ rfl
          rw [← hrest]
          exact List.mem_append_right _ (List.mem_cons_self _ _)
      | cons c2 t2' =>
          simp only [List.cons_append, List.cons.injEq] at h
          obtain ⟨hc, hrest⟩ := h
          obtain ⟨ht, hs⟩ := ih t2' hrest
          exact ⟨by rw [hc, ht], hs⟩

/-- C5: two queries produce the same SearchCacheKey exactly when their
lowercase-trimmed titles agree and their years agree — the key is
insensitive to casing and surrounding whitespace of the title, and distinct
normalized (title, year) pairs never collide. -/
theorem search_cache_key_iff (t1 t2 : String) (y1 y2 : Option Int) :
    search_cache_key t1 y1 = search_cache_key t2 y2 ↔
      (norm_title t1 = norm_title t2 ∧ y1 = y2) := by
  constructor
  · intro h
    have hdata := congrArg String.data h
    simp only [search_cache_key, String.data_append] at hdata
    have h1 : (norm_title t1).data ++ '|' :: (year_field y1).data
            = (norm_title t2).data ++ '|' :: (year_field y2).data := by
      simpa using hdata
    obtain ⟨ht, hy⟩ := sep_split _ _ _ _
      (year_field_no_bar y1) (year_field_no_bar y2) h1
    exact ⟨String.ext ht, year_field_inj y1 y2 (String.ext hy)⟩
  · rintro ⟨h1, h2⟩
    simp [search_cache_key, h1, h2]

/-- C5 witness-style corollary: `"Inception"` and `"  inception  "` with the
same year share one key. -/
theorem search_cache_key_iff_witness :
    search_cache_key "Inception" (some 2010)
      = search_cache_key "  inception  " (some 2010) := by
  exact (search_cache_key_iff "Inception" "  inception  "
    (some 2010) (some 2010)).mpr ⟨by decide, rfl⟩

/-! ## Worker unfolding helpers -/

/-- A cache hit turns the worker into the coercion of the cached entry
followed by the post-resolution steps. -/
theorem worker_cached (env : NetEnv) (st : St) (t : String) (y : Option Int)
    (cached : Obj)
    (hc : alget st.search_cache (search_cache_key t y) = some cached) :
    worker env st t y =
      match pyInt (pyOr (pyget cached "id") (J.i 0)) with
      | Except.error e => Except.error e
      | Except.ok tmdb_id =>
          after_resolve env st t y (pyget cached "media_type") tmdb_id := by
  simp only [worker]
  rw [hc]

/-- A cache miss turns the worker into search, pick, write-back and the
post-resolution steps. -/
theorem worker_missed (env : NetEnv) (st : St) (t : String) (y : Option Int)
    (hc : alget st.search_cache (search_cache_key t y) = none) :
    worker env st t y =
      match search_multi env st t with
      | Except.error e => Except.error e
      | Except.ok (results, st1) =>
          match pick_best_result results y with
          | Except.error e => Except.error e
          | Except.ok none =>
              Except.ok (Outcome.no_match t y,
                st1.withSC (alset st1.search_cache (search_cache_key t y)
                  (mk_entry J.null 0)))
          | Except.ok (some (mtJ, tmdb_id)) =>
              after_resolve env
                (st1.withSC (alset st1.search_cache (search_cache_key t y)
                  (mk_entry mtJ tmdb_id)))
                t y mtJ tmdb_id := by
  simp only [worker]
  rw [hc]

/-- The coercion `int(cached.get("id") or 0)` on an integer-valued `id`
field is the identity (a zero id is first replaced by `0` by the `or`). -/
theorem pyInt_pyOr_int (k : Int) :
    pyInt (pyOr (J.i k) (J.i 0)) = Except.ok k := by
  by_cases h : k = 0 <;> simp [pyOr, jFalsy, pyInt, h]

/-- A successful `title_with_credits` never touches the search cache or the
search-call counter. -/
theorem title_with_credits_preserves (env : NetEnv) (st : St) (mt : String)
    (i : Int) (p : Obj) (st' : St)
    (h : title_with_credits env st mt i = Except.ok (p, st')) :
    st'.search_cache = st.search_cache ∧
    st'.search_calls = st.search_calls := by
  unfold title_with_credits at h
  cases hget : alget st.title_cache (title_cache_path mt i) with
  | some cached =>
      rw [hget] at h
      injection h with h'
      injection h' with h1 h2
      rw [← h2]
      exact ⟨rfl, rfl⟩
  | none =>
      rw [hget] at h
      cases hf : env.fetch mt i with
      | none => rw [hf] at h; exact Except.noConfusion h
      | some raw =>
          rw [hf] at h
          injection h with h'
          injection h' with h1 h2
          rw [← h2]
          exact ⟨rfl, rfl⟩

/-! ## C7 — behaviour on warm search-cache entries -/

/-- C7: for a query whose key is cached with `mediaType = none` (any integer
id), the worker reports `Unmatched` with the state untouched — no remote
search, no remote fetch; for a cached real type and nonzero id, the remote
search is skipped and the worker proceeds directly to the record-cached
fetch (its outcome and state are those of `title_with_credits`, and the
search-call counter never moves). -/
theorem worker_cached_entry_spec (env : NetEnv) (st : St) (t : String)
    (y : Option Int) (e : Obj) (k : Int)
    (hc : alget st.search_cache (search_cache_key t y) = some e)
    (hid : pyget e "id" = J.i k) :
    (pyget e "media_type" = J.null →
        worker env st t y = Except.ok (Outcome.no_match t y, st)) ∧
    (∀ mt : String, pyget e "media_type" = J.s mt → (mt = "movie" ∨ mt = "tv") →
      k ≠ 0 →
      (∀ p st', title_with_credits env st mt k = Except.ok (p, st') →
          worker env st t y = Except.ok (Outcome.matched p, st') ∧
          st'.search_calls = st.search_calls) ∧
      (∀ err, title_with_credits env st mt k = Except.error err →
          worker env st t y = Except.error err)) := by
  have hw : worker env st t y =
      after_resolve env st t y (pyget e "media_type") k := by
    rw [worker_cached env st t y e hc, hid, pyInt_pyOr_int]
  constructor
  · intro hmt
    rw [hw, hmt]
    unfold after_resolve
    by_cases hk : k = 0 <;> simp [hk]
  · intro mt hmt hmt_ok hk
    have hw2 : worker env st t y =
        match title_with_credits env st mt k with
        | Except.error e => Except.error e
        | Except.ok (p, st') => Except.ok (Outcome.matched p, st') := by
      rw [hw, hmt]
      unfold after_resolve
      rw [if_neg hk]
      simp [hmt_ok]
    constructor
    · intro p st' htwc
      rw [hw2, htwc]
      exact ⟨rfl, (title_with_credits_preserves env st mt k p st' htwc).2⟩
    · intro err htwc
      rw [hw2, htwc]

/-- C7 witness: a concrete no-match sentinel entry yields `Unmatched`
untouched, and a concrete real entry with the record already cached yields
that record with no remote call. -/
theorem worker_cached_entry_spec_witness :
    worker ⟨fun _ => none, fun _ _ => none⟩
        ⟨[(search_cache_key "a" none,
           [("media_type", J.null), ("id", J.i 0)])], [], 0, 0⟩ "a" none
      = Except.ok (Outcome.no_match "a" none,
          ⟨[(search_cache_key "a" none,
             [("media_type", J.null), ("id", J.i 0)])], [], 0, 0⟩) ∧
    worker ⟨fun _ => none, fun _ _ => none⟩
        ⟨[(search_cache_key "b" none,
           [("media_type", J.s "movie"), ("id", J.i 3)])],
         [(("movie", 3), [("title", J.s "b")])], 0, 0⟩ "b" none
      = Except.ok (Outcome.matched [("title", J.s "b")],
          ⟨[(search_cache_key "b" none,
             [("media_type", J.s "movie"), ("id", J.i 3)])],
           [(("movie", 3), [("title", J.s "b")])], 0, 0⟩) := by
  constructor
  · exact (worker_cached_entry_spec ⟨fun _ => none, fun _ _ => none⟩
      ⟨[(search_cache_key "a" none,
         [("media_type", J.null), ("id", J.i 0)])], [], 0, 0⟩
      "a" none [("media_type", J.null), ("id", J.i 0)] 0
      rfl rfl).1 rfl
  · exact (((worker_cached_entry_spec ⟨fun _ => none, fun _ _ => none⟩
      ⟨[(search_cache_key "b" none,
         [("media_type", J.s "movie"), ("id", J.i 3)])],
       [(("movie", 3), [("title", J.s "b")])], 0, 0⟩
      "b" none [("media_type", J.s "movie"), ("id", J.i 3)] 3
      rfl rfl).2 "movie" rfl (Or.inl rfl) (by decide)).1
      [("title", J.s "b")] _ rfl).1

/-! ## C10 — degradation on malformed cache entries -/

/-- C10 counterexample: a malformed cached entry whose `mediaType` is
outside the movie/series/none set but whose `id` is a truthy non-numeric
string makes `int(cached.get("id") or 0)` raise, so the batch raises
instead of reporting the query as `Unmatched`. -/
theorem malformed_id_raises :
    resolve_and_fetch_credits_parallel ⟨fun _ => some [], fun _ _ => some []⟩
        ⟨[(search_cache_key "t" none,
           [("media_type", J.s "person"), ("id", J.s "x")])], [], 0, 0⟩
        [("t", none)]
      = Except.error WErr.py := rfl

/-- C10 (amended): a query whose cached entry has a falsy `id` (0, missing,
null, empty), or a `mediaType` outside movie/tv together with an
integer-typed `id`, is reported `Unmatched` with no remote search, no
remote fetch and no exception; the coercion only raises when the `id` is a
truthy non-integer. -/
theorem malformed_entry_no_match (env : NetEnv) (st : St) (t : String)
    (y : Option Int) (e : Obj)
    (hc : alget st.search_cache (search_cache_key t y) = some e)
    (hmal : jFalsy (pyget e "id") = true ∨
      ((∀ s : String, pyget e "media_type" = J.s s → s ≠ "movie" ∧ s ≠ "tv") ∧
        ∃ n : Int, pyget e "id" = J.i n)) :
    worker env st t y = Except.ok (Outcome.no_match t y, st) := by
  rcases hmal with hfalsy | ⟨hmt, n, hid⟩
  · rw [worker_cached env st t y e hc]
    have h0 : pyOr (pyget e "id") (J.i 0) = J.i 0 := by simp [pyOr, hfalsy]
    rw [h0]
    show after_resolve env st t y (pyget e "media_type") 0 = _
    unfold after_resolve
    simp
  · have hw2 : worker env st t y =
        after_resolve env st t y (pyget e "media_type") n := by
      rw [worker_cached env st t y e hc, hid, pyInt_pyOr_int]
    rw [hw2]
    unfold after_resolve
    by_cases hn : n = 0
    · rw [if_pos hn]
    · rw [if_neg hn]
      cases hmtv : pyget e "media_type" with
      | s str =>
          obtain ⟨h1, h2⟩ := hmt str hmtv
          simp [h1, h2]
      | null => rfl
      | i m => rfl
      | arr l => rfl

/-- C10 witness: a cached entry with `mediaType = "person"` and integer id,
and a cached entry with a null id, both degrade to `Unmatched` with the
state untouched. -/
theorem malformed_entry_no_match_witness :
    worker ⟨fun _ => none, fun _ _ => none⟩
        ⟨[(search_cache_key "a" none,
           [("media_type", J.s "person"), ("id", J.i 9)])], [], 0, 0⟩ "a" none
      = Except.ok (Outcome.no_match "a" none,
          ⟨[(search_cache_key "a" none,
             [("media_type", J.s "person"), ("id", J.i 9)])], [], 0, 0⟩) ∧
    worker ⟨fun _ => none, fun _ _ => none⟩
        ⟨[(search_cache_key "b" none,
           [("media_type", J.s "movie"), ("id", J.null)])], [], 0, 0⟩ "b" none
      = Except.ok (Outcome.no_match "b" none,
          ⟨[(search_cache_key "b" none,
             [("media_type", J.s "movie"), ("id", J.null)])], [], 0, 0⟩) := by
  constructor
  · refine malformed_entry_no_match ⟨fun _ => none, fun _ _ => none⟩
      ⟨[(search_cache_key "a" none,
         [("media_type", J.s "person"), ("id", J.i 9)])], [], 0, 0⟩
      "a" none [("media_type", J.s "person"), ("id", J.i 9)] rfl
      (Or.inr ⟨?_, 9, rfl⟩)
    intro s hs
    simp only [pyget, alget] at hs
    norm_num at hs
    rw [← hs]
    exact ⟨by decide, by decide⟩
  · exact malformed_entry_no_match ⟨fun _ => none, fun _ _ => none⟩
      ⟨[(search_cache_key "b" none,
         [("media_type", J.s "movie"), ("id", J.null)])], [], 0, 0⟩
      "b" none [("media_type", J.s "movie"), ("id", J.null)] rfl
      (Or.inl rfl)

/-! ## C8 — the SearchCacheEntry invariant -/

/-- Inversion of a successful subscript. -/
theorem subscr_inv (o : Obj) (k : String) (v : J)
    (h : subscr o k = Except.ok v) : alget o k = some v := by
  unfold subscr at h
  cases hg : alget o k with
  | none => rw [hg] at h; exact Except.noConfusion h
  | some w => simp only [hg] at h; injection h with h'; rw [h']

/-- A successful year-scan hit names a member of the candidate list: the
returned identity is that candidate's `media_type` field and coerced id. -/
theorem pick_year_scan_mem (y : Int) (results : List Obj) (mtJ : J) (n : Int)
    (h : pick_year_scan y results = Except.ok (some (mtJ, n))) :
    ∃ r ∈ results, mtJ = pyget r "media_type" ∧
      ∃ v : J, alget r "id" = some v ∧ pyInt v = Except.ok n := by
  induction results with
  | nil => exact absurd h (by simp [pick_year_scan])
  | cons hd tl ih =>
      rw [pick_year_scan_cons] at h
      cases hd_ok : py_date_str (candidate_date hd) with
      | error e => simp only [hd_ok] at h; exact Except.noConfusion h
      | ok d =>
          simp only [hd_ok] at h
          by_cases hmatch : year_matches d y = true
          · rw [if_pos hmatch] at h
            cases hsub : subscr hd "id" with
            | error e => simp only [hsub] at h; exact Except.noConfusion h
            | ok idv =>
                simp only [hsub] at h
                cases hint : pyInt idv with
                | error e => simp only [hint] at h; exact Except.noConfusion h
                | ok m =>
                    simp only [hint, Except.ok.injEq, Option.some.injEq,
                      Prod.mk.injEq] at h
                    obtain ⟨h1, h2⟩ := h
                    subst h2
                    exact ⟨hd, List.mem_cons_self _ _, h1.symm, idv,
                      subscr_inv hd "id" idv hsub, hint⟩
          · rw [if_neg hmatch] at h
            obtain ⟨r, hr, hrest⟩ := ih h
            exact ⟨r, List.mem_cons_of_mem hd hr, hrest⟩

/-- A successful pick names a member of the candidate list; its media type
is the candidate's field (possibly through the `"movie"` default) and its
id is the candidate's coerced `id` field. -/
theorem pick_best_result_mem (results : List Obj) (year : Option Int)
    (mtJ : J) (n : Int)
    (h : pick_best_result results year = Except.ok (some (mtJ, n))) :
    ∃ r ∈ results,
      (mtJ = pyget r "media_type" ∨ mtJ = pygetD r "media_type" (J.s "movie")) ∧
      ∃ v : J, alget r "id" = some v ∧ pyInt v = Except.ok n := by
  cases results with
  | nil => exact absurd h (by simp [pick_best_result])
  | cons top tl =>
      rw [pick_best_result_cons] at h
      have htop : ∀ (h : (match subscr top "id" with
          | Except.error e => Except.error e
          | Except.ok idv =>
              match pyInt idv with
              | Except.error e => Except.error e
              | Except.ok n =>
                  Except.ok (some (pygetD top "media_type" (J.s "movie"), n)))
            = Except.ok (some (mtJ, n))),
          ∃ r ∈ top :: tl,
            (mtJ = pyget r "media_type" ∨
              mtJ = pygetD r "media_type" (J.s "movie")) ∧
            ∃ v : J, alget r "id" = some v ∧ pyInt v = Except.ok n := by
        intro h
        cases hsub : subscr top "id" with
        | error e => simp only [hsub] at h; exact Except.noConfusion h
        | ok idv =>
            simp only [hsub] at h
            cases hint : pyInt idv with
            | error e => simp only [hint] at h; exact Except.noConfusion h
            | ok m =>
                simp only [hint, Except.ok.injEq, Option.some.injEq,
                  Prod.mk.injEq] at h
                obtain ⟨h1, h2⟩ := h
                subst h2
                exact ⟨top, List.mem_cons_self _ _, Or.inr h1.symm, idv,
                  subscr_inv top "id" idv hsub, hint⟩
      cases year with
      | none => exact htop h
      | some y =>
          have h' : (match pick_year_scan y (top :: tl) with
              | Except.error e => Except.error e
              | Except.ok (some p) => Except.ok (some p)
              | Except.ok none =>
                  match subscr top "id" with
                  | Except.error e => Except.error e
                  | Except.ok idv =>
                      match pyInt idv with
                      | Except.error e => Except.error e
                      | Except.ok n =>
                          Except.ok
                            (some (pygetD top "media_type" (J.s "movie"), n)))
                = Except.ok (some (mtJ, n)) := h
          cases hscan : pick_year_scan y (top :: tl) with
          | error e => simp only [hscan] at h'; exact Except.noConfusion h'
          | ok popt =>
              simp only [hscan] at h'
              cases popt with
              | some p =>
                  simp only [Except.ok.injEq, Option.some.injEq] at h'
                  subst h'
                  obtain ⟨r, hr, h1, hrest⟩ :=
                    pick_year_scan_mem y _ mtJ n hscan
                  exact ⟨r, hr, Or.inl h1, hrest⟩
              | none => exact htop h'

/-- Members of the `search_multi` filter carry a `"movie"` or `"tv"` string
in their `media_type` field. -/
theorem is_movie_or_tv_inv (r : Obj) (h : is_movie_or_tv r = true) :
    pyget r "media_type" = J.s "movie" ∨ pyget r "media_type" = J.s "tv" := by
  unfold is_movie_or_tv at h
  cases hm : pyget r "media_type" with
  | s str =>
      rw [hm] at h
      simp at h
      rcases h with rfl | rfl
      · exact Or.inl rfl
      · exact Or.inr rfl
  | null => rw [hm] at h; exact Bool.noConfusion h
  | i m => rw [hm] at h; exact Bool.noConfusion h
  | arr l => rw [hm] at h; exact Bool.noConfusion h

/-- The post-resolution steps never change the search cache. -/
theorem after_resolve_sc (env : NetEnv) (st : St) (t : String)
    (y : Option Int) (mtJ : J) (k : Int) (o : Outcome) (st' : St)
    (h : after_resolve env st t y mtJ k = Except.ok (o, st')) :
    st'.search_cache = st.search_cache := by
  unfold after_resolve at h
  by_cases hk : k = 0
  · rw [if_pos hk] at h
    injection h with h'
    injection h' with h1 h2
    rw [← h2]
  · rw [if_neg hk] at h
    cases mtJ with
    | s mt =>
        by_cases hmt : mt = "movie" ∨ mt = "tv"
        · simp only [if_pos hmt] at h
          cases htwc : title_with_credits env st mt k with
          | error e => simp only [htwc] at h; exact Except.noConfusion h
          | ok r2 =>
              obtain ⟨p, st2⟩ := r2
              simp only [htwc, Except.ok.injEq, Prod.mk.injEq] at h
              rw [← h.2]
              exact (title_with_credits_preserves env st mt k p st2 htwc).1
        · simp only [if_neg hmt, Except.ok.injEq, Prod.mk.injEq] at h
          rw [← h.2]
    | null =>
        injection h with h'
        injection h' with h1 h2
        rw [← h2]
    | i m =>
        injection h with h'
        injection h' with h1 h2
        rw [← h2]
    | arr l =>
        injection h with h'
        injection h' with h1 h2
        rw [← h2]

/-- The invariant §3 states for SearchCacheEntry: either the no-match
sentinel (`mediaType = none`, `id = 0`), or a real movie/tv type with a
strictly positive id. -/
def entry_inv (e : Obj) : Prop :=
  (pyget e "media_type" = J.null ∧ pyget e "id" = J.i 0) ∨
  (∃ mt : String, pyget e "media_type" = J.s mt ∧ (mt = "movie" ∨ mt = "tv") ∧
    ∃ n : Int, pyget e "id" = J.i n ∧ 0 < n)

/-- All entries of a search cache satisfy the invariant. -/
def sc_inv (sc : List (String × Obj)) : Prop :=
  ∀ k e, alget sc k = some e → entry_inv e

/-- The oracle only ever returns candidates with strictly positive integer
ids (the well-formedness assumption the amended C8 needs). -/
def env_pos (env : NetEnv) : Prop :=
  ∀ t rs, env.search t = some rs →
    ∀ r ∈ rs, ∃ n : Int, alget r "id" = some (J.i n) ∧ 0 < n

theorem sc_inv_alset (sc : List (String × Obj)) (key : String) (v : Obj)
    (hsc : sc_inv sc) (hv : entry_inv v) : sc_inv (alset sc key v) := by
  intro k e h
  rw [alget_alset] at h
  by_cases hk : key = k
  · rw [if_pos hk] at h
    injection h with h'
    rw [← h']
    exact hv
  · rw [if_neg hk] at h
    exact hsc k e h

/-- One worker step preserves the entry invariant, provided the oracle only
serves positive ids. -/
theorem worker_entry_inv (env : NetEnv) (hpos : env_pos env) (st : St)
    (hsc : sc_inv st.search_cache) (t : String) (y : Option Int)
    (o : Outcome) (st' : St) (h : worker env st t y = Except.ok (o, st')) :
    sc_inv st'.search_cache := by
  cases hc : alget st.search_cache (search_cache_key t y) with
  | some cached =>
      rw [worker_cached env st t y cached hc] at h
      cases hint : pyInt (pyOr (pyget cached "id") (J.i 0)) with
      | error e => simp only [hint] at h; exact Except.noConfusion h
      | ok k =>
          simp only [hint] at h
          rw [after_resolve_sc env st t y _ k o st' h]
          exact hsc
  | none =>
      rw [worker_missed env st t y hc] at h
      cases hsearch : env.search t with
      | none =>
          simp only [show search_multi env st t = Except.error WErr.transport
            from by simp [search_multi, hsearch]] at h
          exact Except.noConfusion h
      | some rs =>
          simp only [show search_multi env st t =
              Except.ok (rs.filter is_movie_or_tv, st.bumpSearch)
            from by simp [search_multi, hsearch]] at h
          cases hpick : pick_best_result (rs.filter is_movie_or_tv) y with
          | error e =>
              simp only [hpick] at h
              exact Except.noConfusion h
          | ok popt =>
              simp only [hpick] at h
              cases popt with
              | none =>
                  have h2 : Except.ok (ε := WErr) (Outcome.no_match t y,
                      (st.bumpSearch).withSC
                        (alset (st.bumpSearch).search_cache
                          (search_cache_key t y) (mk_entry J.null 0)))
                      = Except.ok (o, st') := h
                  simp only [Except.ok.injEq, Prod.mk.injEq] at h2
                  rw [← h2.2]
                  exact sc_inv_alset _ _ _ hsc (Or.inl ⟨rfl, rfl⟩)
              | some p =>
                  obtain ⟨mtJ, n⟩ := p
                  have h2 : after_resolve env
                      ((st.bumpSearch).withSC
                        (alset (st.bumpSearch).search_cache
                          (search_cache_key t y) (mk_entry mtJ n)))
                      t y mtJ n = Except.ok (o, st') := h
                  have hmem := pick_best_result_mem _ y mtJ n hpick
                  obtain ⟨r, hr, hmt, v, hv, hvInt⟩ := hmem
                  obtain ⟨hr_mem, hr_filter⟩ := List.mem_filter.mp hr
                  obtain ⟨m, hm, hmpos⟩ := hpos t rs hsearch r hr_mem
                  have hveq : v = J.i m := by
                    rw [hv] at hm
                    simpa using hm
                  subst hveq
                  have hmn : m = n := by
                    simpa [pyInt] using hvInt
                  rw [hmn] at hmpos
                  have hmt_sv : pyget r "media_type" = J.s "movie" ∨
                      pyget r "media_type" = J.s "tv" :=
                    is_movie_or_tv_inv r hr_filter
                  have hmtJ : mtJ = J.s "movie" ∨ mtJ = J.s "tv" := by
                    rcases hmt with hmt | hmt
                    · rw [hmt]
                      exact hmt_sv
                    · rcases hmt_sv with hsv | hsv <;>
                        [left; right] <;>
                        · rw [hmt]
                          unfold pygetD
                          unfold pyget at hsv
                          cases hg : alget r "media_type" with
                          | none =>
                              rw [hg] at hsv
                              exact absurd hsv (by simp)
                          | some w =>
                              rw [hg] at hsv
                              simp at hsv
                              rw [hsv]
                              rfl
                  have hinv : entry_inv (mk_entry mtJ n) := by
                    rcases hmtJ with rfl | rfl
                    · exact Or.inr ⟨"movie", rfl, Or.inl rfl, n, rfl, hmpos⟩
                    · exact Or.inr ⟨"tv", rfl, Or.inr rfl, n, rfl, hmpos⟩
                  rw [after_resolve_sc env _ t y mtJ n o st' h2]
                  exact sc_inv_alset _ _ _ hsc hinv

/-- A whole batch preserves the entry invariant. -/
theorem run_workers_entry_inv (env : NetEnv) (hpos : env_pos env)
    (qs : List (String × Option Int)) :
    ∀ st : St, sc_inv st.search_cache →
      ∀ items nm stF,
        run_workers env st qs = Except.ok (items, nm, stF) →
        sc_inv stF.search_cache := by
  induction qs with
  | nil =>
      intro st hsc items nm stF h
      unfold run_workers at h
      simp only [Except.ok.injEq, Prod.mk.injEq] at h
      rw [← h.2.2]
      exact hsc
  | cons q rest ih =>
      intro st hsc items nm stF h
      obtain ⟨t, y⟩ := q
      unfold run_workers at h
      cases hw : worker env st t y with
      | error e => simp only [hw] at h; exact Except.noConfusion h
      | ok os =>
          obtain ⟨o, st'⟩ := os
          simp only [hw] at h
          cases hrun : run_workers env st' rest with
          | error e => simp only [hrun] at h; exact Except.noConfusion h
          | ok r3 =>
              obtain ⟨items', nm', stF'⟩ := r3
              simp only [hrun] at h
              have hsc' := worker_entry_inv env hpos st hsc t y o st' hw
              have hF := ih st' hsc' items' nm' stF' hrun
              cases o with
              | matched p =>
                  simp only [Except.ok.injEq, Prod.mk.injEq] at h
                  rw [← h.2.2]
                  exact hF
              | no_match t' y' =>
                  simp only [Except.ok.injEq, Prod.mk.injEq] at h
                  rw [← h.2.2]
                  exact hF

/-- C8 counterexample: the remote search can return a candidate with id 0;
the core then persists the entry `{"media_type": "movie", "id": 0}`, whose
`mediaType` is not the `none` sentinel yet whose id is not positive —
violating the claimed invariant. -/
theorem entry_invariant_violated_zero_id :
    resolve_and_fetch_credits_parallel
        ⟨fun _ => some [[("media_type", J.s "movie"), ("id", J.i 0)]],
         fun _ _ => none⟩
        stEmpty [("t", none)]
      = Except.ok ([], [("t", none)],
          ⟨[(search_cache_key "t" none,
             [("media_type", J.s "movie"), ("id", J.i 0)])], [], 1, 0⟩) ∧
    ¬ entry_inv [("media_type", J.s "movie"), ("id", J.i 0)] := by
  constructor
  · rfl
  · rintro (⟨h1, h2⟩ | ⟨mt, hmt, hmt_ok, n, hn, hpos⟩)
    · simp [pyget, alget] at h1
    · have h0 : pyget [("media_type", J.s "movie"), ("id", J.i 0)] "id"
          = J.i 0 := rfl
      rw [h0] at hn
      injection hn with h'
      omega

/-- C8 (amended): provided every candidate the remote search returns has a
strictly positive integer id, every search-cache entry written by any
sequence of batches starting from an invariant-satisfying (e.g. empty)
cache satisfies the invariant: either the `none` sentinel with id 0, or a
movie/tv type with strictly positive id. -/
theorem entry_invariant_with_positive_ids (env : NetEnv) (hpos : env_pos env)
    (st : St) (hsc : sc_inv st.search_cache)
    (qs : List (String × Option Int)) (items : List Obj)
    (nm : List (String × Option Int)) (stF : St)
    (h : resolve_and_fetch_credits_parallel env st qs
          = Except.ok (items, nm, stF)) :
    sc_inv stF.search_cache :=
  run_workers_entry_inv env hpos qs st hsc items nm stF h

/-- C8 witness: a concrete batch against an oracle serving a positive id
leaves the written entry satisfying the invariant. -/
theorem entry_invariant_with_positive_ids_witness :
    entry_inv [("media_type", J.s "movie"), ("id", J.i 5)] := by
  have hpos : env_pos ⟨fun _ =>
      some [[("media_type", J.s "movie"), ("id", J.i 5)]],
      fun _ _ => some []⟩ := by
    intro t rs hrs r hr
    injection hrs with h'
    rw [← h'] at hr
    simp only [List.mem_cons, List.not_mem_nil, or_false] at hr
    subst hr
    exact ⟨5, rfl, by norm_num⟩
  have hsc0 : sc_inv stEmpty.search_cache := by
    intro k e h
    exact Option.noConfusion h
  have hinv := entry_invariant_with_positive_ids
    ⟨fun _ => some [[("media_type", J.s "movie"), ("id", J.i 5)]],
     fun _ _ => some []⟩ hpos stEmpty hsc0 [("m", none)]
    [[("_media_type", J.s "movie"), ("_normalized_runtime", J.i 0)]] []
    ⟨[(search_cache_key "m" none,
       [("media_type", J.s "movie"), ("id", J.i 5)])],
     [(("movie", 5),
       [("_media_type", J.s "movie"), ("_normalized_runtime", J.i 0)])],
     1, 1⟩ rfl
  exact hinv (search_cache_key "m" none)
    [("media_type", J.s "movie"), ("id", J.i 5)] rfl

/-! ## C1 — a transport failure during fetch aborts the whole batch -/

/-- C1 counterexample: two queries; the first one's record fetch fails with
a transport error, the second would resolve and fetch fine.  The claim says
the second query's outcome is still reported and the search cache is still
persisted; in fact `fut.result()` re-raises the first worker's exception in
the aggregation loop, so `resolve_and_fetch_credits_parallel` raises: no
collections are returned (the second query's outcome is lost) and
`_save_search_cache` on line 217 is never reached. -/
theorem fetch_failure_returns_error_not_collections :
    resolve_and_fetch_credits_parallel
        ⟨fun t => if t = "bad"
            then some [[("media_type", J.s "movie"), ("id", J.i 1)]]
            else some [[("media_type", J.s "movie"), ("id", J.i 2)]],
         fun _ i => if i = 1 then none else some []⟩
        stEmpty [("bad", none), ("good", none)]
      = Except.error WErr.transport := rfl

/-- C1 (amended): if any query's unit of work raises — in particular on a
transport failure during its fetch — the whole batch aborts with that
error: `resolve_and_fetch_credits_parallel` raises instead of returning the
outcome collections, the remaining queries' outcomes are not reported, and
the search cache is not persisted.  The failure is still distinguishable
from a no-match outcome (an exception rather than an `Unmatched` entry),
and the failure of one unit does not depend on the other units' work. -/
theorem fetch_failure_aborts_batch (env : NetEnv)
    (qs1 : List (String × Option Int)) (t : String) (y : Option Int)
    (qs2 : List (String × Option Int)) (st : St) (items : List Obj)
    (nm : List (String × Option Int)) (st1 : St) (e : WErr)
    (h1 : run_workers env st qs1 = Except.ok (items, nm, st1))
    (h2 : worker env st1 t y = Except.error e) :
    resolve_and_fetch_credits_parallel env st (qs1 ++ (t, y) :: qs2)
      = Except.error e := by
  unfold resolve_and_fetch_credits_parallel
  induction qs1 generalizing st items nm with
  | nil =>
      unfold run_workers at h1
      simp only [Except.ok.injEq, Prod.mk.injEq] at h1
      rw [List.nil_append]
      unfold run_workers
      rw [show st1 = st from h1.2.2.symm] at h2
      rw [h2]
  | cons q rest ih =>
      obtain ⟨a, b⟩ := q
      unfold run_workers at h1
      cases hw : worker env st a b with
      | error e' => simp only [hw] at h1; exact Except.noConfusion h1
      | ok os =>
          obtain ⟨o, st'⟩ := os
          simp only [hw] at h1
          cases hrun : run_workers env st' rest with
          | error e' => simp only [hrun] at h1; exact Except.noConfusion h1
          | ok r3 =>
              obtain ⟨items', nm', stF'⟩ := r3
              simp only [hrun] at h1
              have hst1 : stF' = st1 := by
                cases o with
                | matched p =>
                    simp only [Except.ok.injEq, Prod.mk.injEq] at h1
                    exact h1.2.2
                | no_match t' y' =>
                    simp only [Except.ok.injEq, Prod.mk.injEq] at h1
                    exact h1.2.2
              rw [List.cons_append]
              unfold run_workers
              simp only [hw]
              rw [ih st' items' nm' (by rw [hrun, hst1])]

/-- C1 witness: a batch whose only query fails its fetch with a transport
error aborts with that error. -/
theorem fetch_failure_aborts_batch_witness :
    resolve_and_fetch_credits_parallel
        ⟨fun _ => some [[("media_type", J.s "movie"), ("id", J.i 4)]],
         fun _ _ => none⟩
        stEmpty [("x", some 5)]
      = Except.error WErr.transport := by
  exact fetch_failure_aborts_batch
    ⟨fun _ => some [[("media_type", J.s "movie"), ("id", J.i 4)]],
     fun _ _ => none⟩
    [] "x" (some 5) [] stEmpty [] [] stEmpty WErr.transport rfl rfl

/-! ## C2 — warm-cache idempotence machinery -/

/-- Cache growth: every entry of the smaller state's caches is present,
with the same value, in the bigger state's caches (counters unconstrained). -/
def sub_caches (st st' : St) : Prop :=
  (∀ k e, alget st.search_cache k = some e →
    alget st'.search_cache k = some e) ∧
  (∀ k p, alget st.title_cache k = some p → alget st'.title_cache k = some p)

theorem sub_caches_refl (st : St) : sub_caches st st :=
  ⟨fun _ _ h => h, fun _ _ h => h⟩

theorem sub_caches_trans (a b c : St) (h1 : sub_caches a b)
    (h2 : sub_caches b c) : sub_caches a c :=
  ⟨fun k e h => h2.1 k e (h1.1 k e h), fun k p h => h2.2 k p (h1.2 k p h)⟩

/-- Inserting at a key absent from an association list preserves all
present bindings. -/
theorem alget_alset_fresh {κ α : Type} [DecidableEq κ] (l : List (κ × α))
    (key : κ) (v : α) (hfresh : alget l key = none) (k : κ) (e : α)
    (h : alget l k = some e) : alget (alset l key v) k = some e := by
  rw [alget_alset]
  by_cases hk : key = k
  · rw [← hk] at h
    rw [hfresh] at h
    exact Option.noConfusion h
  · rw [if_neg hk]
    exact h

/-- Replay of `title_with_credits`: a success leaves the record present at
its key, only grows the caches, and replays as a pure cache hit from any
bigger state. -/
theorem title_with_credits_replay (env : NetEnv) (st : St) (mt : String)
    (i : Int) (p : Obj) (st' : St)
    (h : title_with_credits env st mt i = Except.ok (p, st')) :
    sub_caches st st' ∧
    alget st'.title_cache (title_cache_path mt i) = some p ∧
    ∀ stB, sub_caches st' stB →
      title_with_credits env stB mt i = Except.ok (p, stB) := by
  unfold title_with_credits at h
  cases hget : alget st.title_cache (title_cache_path mt i) with
  | some cached =>
      simp only [hget, Except.ok.injEq, Prod.mk.injEq] at h
      obtain ⟨hp, hst⟩ := h
      subst hp
      subst hst
      refine ⟨sub_caches_refl st, hget, ?_⟩
      intro stB hsub
      unfold title_with_credits
      rw [hsub.2 _ _ hget]
  | none =>
      simp only [hget] at h
      cases hf : env.fetch mt i with
      | none => simp only [hf] at h; exact Except.noConfusion h
      | some raw =>
          simp only [hf, Except.ok.injEq, Prod.mk.injEq] at h
          obtain ⟨hp, hst⟩ := h
          subst hp
          subst hst
          have hkey : alget (st.saveTitle (title_cache_path mt i)
              (augment raw mt)).title_cache (title_cache_path mt i)
              = some (augment raw mt) := by
            show alget (alset st.title_cache (title_cache_path mt i)
              (augment raw mt)) (title_cache_path mt i) = _
            rw [alget_alset, if_pos rfl]
          refine ⟨⟨fun k e he => he, ?_⟩, hkey, ?_⟩
          · intro k q hq
            exact alget_alset_fresh st.title_cache _ _ hget k q hq
          · intro stB hsub
            unfold title_with_credits
            rw [hsub.2 _ _ hkey]

/-- Replay of the post-resolution steps. -/
theorem after_resolve_replay (env : NetEnv) (st : St) (t : String)
    (y : Option Int) (mtJ : J) (k : Int) (o : Outcome) (st' : St)
    (h : after_resolve env st t y mtJ k = Except.ok (o, st')) :
    sub_caches st st' ∧
    ∀ stB, sub_caches st' stB →
      after_resolve env stB t y mtJ k = Except.ok (o, stB) := by
  unfold after_resolve at h
  by_cases hk : k = 0
  · rw [if_pos hk] at h
    simp only [Except.ok.injEq, Prod.mk.injEq] at h
    obtain ⟨ho, hst⟩ := h
    subst ho
    subst hst
    refine ⟨sub_caches_refl st, ?_⟩
    intro stB hsub
    unfold after_resolve
    rw [if_pos hk]
  · rw [if_neg hk] at h
    cases mtJ with
    | s mt =>
        by_cases hmt : mt = "movie" ∨ mt = "tv"
        · simp only [if_pos hmt] at h
          cases htwc : title_with_credits env st mt k with
          | error e => simp only [htwc] at h; exact Except.noConfusion h
          | ok r2 =>
              obtain ⟨p, st2⟩ := r2
              simp only [htwc, Except.ok.injEq, Prod.mk.injEq] at h
              obtain ⟨ho, hst⟩ := h
              subst ho
              subst hst
              obtain ⟨hsub1, hkey, hrep⟩ :=
                title_with_credits_replay env st mt k p st2 htwc
              refine ⟨hsub1, ?_⟩
              intro stB hsub
              unfold after_resolve
              rw [if_neg hk]
              simp only [if_pos hmt]
              rw [hrep stB hsub]
        · simp only [if_neg hmt, Except.ok.injEq, Prod.mk.injEq] at h
          obtain ⟨ho, hst⟩ := h
          subst ho
          subst hst
          refine ⟨sub_caches_refl st, ?_⟩
          intro stB hsub
          unfold after_resolve
          rw [if_neg hk]
          simp only [if_neg hmt]
    | null =>
        simp only [Except.ok.injEq, Prod.mk.injEq] at h
        obtain ⟨ho, hst⟩ := h
        subst ho
        subst hst
        refine ⟨sub_caches_refl st, ?_⟩
        intro stB hsub
        unfold after_resolve
        rw [if_neg hk]
    | i m =>
        simp only [Except.ok.injEq, Prod.mk.injEq] at h
        obtain ⟨ho, hst⟩ := h
        subst ho
        subst hst
        refine ⟨sub_caches_refl st, ?_⟩
        intro stB hsub
        unfold after_resolve
        rw [if_neg hk]
    | arr l =>
        simp only [Except.ok.injEq, Prod.mk.injEq] at h
        obtain ⟨ho, hst⟩ := h
        subst ho
        subst hst
        refine ⟨sub_caches_refl st, ?_⟩
        intro stB hsub
        unfold after_resolve
        rw [if_neg hk]

/-- A worker that finds the no-match sentinel reports `Unmatched` without
touching the state. -/
theorem worker_hit_sentinel (env : NetEnv) (stB : St) (t : String)
    (y : Option Int)
    (hcB : alget stB.search_cache (search_cache_key t y)
        = some (mk_entry J.null 0)) :
    worker env stB t y = Except.ok (Outcome.no_match t y, stB) := by
  rw [worker_cached env stB t y _ hcB]
  rfl

/-- A worker that finds a written entry continues with exactly the entry's
media type and id. -/
theorem worker_hit_entry (env : NetEnv) (stB : St) (t : String)
    (y : Option Int) (mtJ : J) (k : Int)
    (hcB : alget stB.search_cache (search_cache_key t y)
        = some (mk_entry mtJ k)) :
    worker env stB t y = after_resolve env stB t y mtJ k := by
  rw [worker_cached env stB t y _ hcB]
  rw [show pyget (mk_entry mtJ k) "id" = J.i k from rfl, pyInt_pyOr_int]
  rfl

/-- Replay of one worker: a success only grows the caches, and from any
bigger state the same worker returns the same outcome as a pure cache
reader, leaving that state untouched (so with zero remote calls). -/
theorem worker_replay (env : NetEnv) (st : St) (t : String) (y : Option Int)
    (o : Outcome) (st' : St)
    (h : worker env st t y = Except.ok (o, st')) :
    sub_caches st st' ∧
    ∀ stB, sub_caches st' stB → worker env stB t y = Except.ok (o, stB) := by
  cases hc : alget st.search_cache (search_cache_key t y) with
  | some cached =>
      rw [worker_cached env st t y cached hc] at h
      cases hint : pyInt (pyOr (pyget cached "id") (J.i 0)) with
      | error e => simp only [hint] at h; exact Except.noConfusion h
      | ok k =>
          simp only [hint] at h
          obtain ⟨hsub, hrep⟩ :=
            after_resolve_replay env st t y (pyget cached "media_type") k o
              st' h
          refine ⟨hsub, ?_⟩
          intro stB hsubB
          have hcB : alget stB.search_cache (search_cache_key t y)
              = some cached :=
            hsubB.1 _ _ (hsub.1 _ _ hc)
          rw [worker_cached env stB t y cached hcB, hint]
          exact hrep stB hsubB
  | none =>
      rw [worker_missed env st t y hc] at h
      cases hsearch : env.search t with
      | none =>
          simp only [show search_multi env st t = Except.error WErr.transport
            from by simp [search_multi, hsearch]] at h
          exact Except.noConfusion h
      | some rs =>
          simp only [show search_multi env st t =
              Except.ok (rs.filter is_movie_or_tv, st.bumpSearch)
            from by simp [search_multi, hsearch]] at h
          cases hpick : pick_best_result (rs.filter is_movie_or_tv) y with
          | error e =>
              simp only [hpick] at h
              exact Except.noConfusion h
          | ok popt =>
              simp only [hpick] at h
              cases popt with
              | none =>
                  have h2 : Except.ok (ε := WErr) (Outcome.no_match t y,
                      (st.bumpSearch).withSC
                        (alset (st.bumpSearch).search_cache
                          (search_cache_key t y) (mk_entry J.null 0)))
                      = Except.ok (o, st') := h
                  simp only [Except.ok.injEq, Prod.mk.injEq] at h2
                  obtain ⟨ho, hst⟩ := h2
                  subst ho
                  subst hst
                  have hsub : sub_caches st ((st.bumpSearch).withSC
                      (alset (st.bumpSearch).search_cache
                        (search_cache_key t y) (mk_entry J.null 0))) := by
                    refine ⟨?_, fun k p hp => hp⟩
                    intro k e he
                    exact alget_alset_fresh st.search_cache _ _ hc k e he
                  refine ⟨hsub, ?_⟩
                  intro stB hsubB
                  have hkey : alget ((st.bumpSearch).withSC
                      (alset (st.bumpSearch).search_cache
                        (search_cache_key t y)
                        (mk_entry J.null 0))).search_cache
                      (search_cache_key t y) = some (mk_entry J.null 0) := by
                    show alget (alset st.search_cache (search_cache_key t y)
                      (mk_entry J.null 0)) (search_cache_key t y) = _
                    rw [alget_alset, if_pos rfl]
                  exact worker_hit_sentinel env stB t y
                    (hsubB.1 _ _ hkey)
              | some p =>
                  obtain ⟨mtJ, k⟩ := p
                  have h2 : after_resolve env
                      ((st.bumpSearch).withSC
                        (alset (st.bumpSearch).search_cache
                          (search_cache_key t y) (mk_entry mtJ k)))
                      t y mtJ k = Except.ok (o, st') := h
                  obtain ⟨hsubW, hrep⟩ := after_resolve_replay env _ t y mtJ k
                    o st' h2
                  have hsubStW : sub_caches st ((st.bumpSearch).withSC
                      (alset (st.bumpSearch).search_cache
                        (search_cache_key t y) (mk_entry mtJ k))) := by
                    refine ⟨?_, fun k' p' hp => hp⟩
                    intro k' e he
                    exact alget_alset_fresh st.search_cache _ _ hc k' e he
                  refine ⟨sub_caches_trans _ _ _ hsubStW hsubW, ?_⟩
                  intro stB hsubB
                  have hkey : alget ((st.bumpSearch).withSC
                      (alset (st.bumpSearch).search_cache
                        (search_cache_key t y)
                        (mk_entry mtJ k))).search_cache
                      (search_cache_key t y) = some (mk_entry mtJ k) := by
                    show alget (alset st.search_cache (search_cache_key t y)
                      (mk_entry mtJ k)) (search_cache_key t y) = _
                    rw [alget_alset, if_pos rfl]
                  rw [worker_hit_entry env stB t y mtJ k
                    (hsubB.1 _ _ (hsubW.1 _ _ hkey))]
                  exact hrep stB hsubB

/-- Replay of a whole batch: a successful run only grows the caches, and
replayed from any bigger state it returns the same matched and unmatched
collections while leaving that state untouched. -/
theorem run_workers_replay (env : NetEnv)
    (qs : List (String × Option Int)) :
    ∀ st items nm stF,
      run_workers env st qs = Except.ok (items, nm, stF) →
      sub_caches st stF ∧
      ∀ stB, sub_caches stF stB →
        run_workers env stB qs = Except.ok (items, nm, stB) := by
  induction qs with
  | nil =>
      intro st items nm stF h
      unfold run_workers at h
      simp only [Except.ok.injEq, Prod.mk.injEq] at h
      obtain ⟨hi, hn, hF⟩ := h
      subst hi
      subst hn
      subst hF
      exact ⟨sub_caches_refl st, fun stB _ => rfl⟩
  | cons q rest ih =>
      intro st items nm stF h
      obtain ⟨t, y⟩ := q
      unfold run_workers at h
      cases hw : worker env st t y with
      | error e => simp only [hw] at h; exact Except.noConfusion h
      | ok os =>
          obtain ⟨o, st'⟩ := os
          simp only [hw] at h
          cases hrun : run_workers env st' rest with
          | error e => simp only [hrun] at h; exact Except.noConfusion h
          | ok r3 =>
              obtain ⟨items', nm', stF'⟩ := r3
              simp only [hrun] at h
              obtain ⟨hsub1, hrep1⟩ := worker_replay env st t y o st' hw
              obtain ⟨hsub2, hrep2⟩ := ih st' items' nm' stF' hrun
              cases o with
              | matched p =>
                  simp only [Except.ok.injEq, Prod.mk.injEq] at h
                  obtain ⟨hi, hn, hF⟩ := h
                  subst hi
                  subst hn
                  subst hF
                  refine ⟨sub_caches_trans _ _ _ hsub1 hsub2, ?_⟩
                  intro stB hsubB
                  unfold run_workers
                  simp only [hrep1 stB (sub_caches_trans _ _ _ hsub2 hsubB),
                    hrep2 stB hsubB]
              | no_match t' y' =>
                  simp only [Except.ok.injEq, Prod.mk.injEq] at h
                  obtain ⟨hi, hn, hF⟩ := h
                  subst hi
                  subst hn
                  subst hF
                  refine ⟨sub_caches_trans _ _ _ hsub1 hsub2, ?_⟩
                  intro stB hsubB
                  unfold run_workers
                  simp only [hrep1 stB (sub_caches_trans _ _ _ hsub2 hsubB),
                    hrep2 stB hsubB]

/-- C2: running the batch once against the empty cold state and then again
with the same inputs against the resulting warm caches returns the same
matched collection and the same unmatched collection, and the second run
performs zero remote search calls and zero remote fetch calls (its final
counters, started at zero, are still zero) and leaves the caches
unchanged. -/
theorem warm_cache_second_run_identical_no_calls (env : NetEnv)
    (qs : List (String × Option Int)) (items : List Obj)
    (nm : List (String × Option Int)) (st1 : St)
    (h : resolve_and_fetch_credits_parallel env stEmpty qs
          = Except.ok (items, nm, st1)) :
    resolve_and_fetch_credits_parallel env
        ⟨st1.search_cache, st1.title_cache, 0, 0⟩ qs
      = Except.ok (items, nm, ⟨st1.search_cache, st1.title_cache, 0, 0⟩) := by
  obtain ⟨hsub, hrep⟩ := run_workers_replay env qs stEmpty items nm st1 h
  exact hrep ⟨st1.search_cache, st1.title_cache, 0, 0⟩
    ⟨fun k e he => he, fun k p hp => hp⟩

/-- C2 witness: one concrete query resolved and fetched cold, then replayed
warm: identical results, zero remote calls in the second run. -/
theorem warm_cache_second_run_identical_no_calls_witness :
    resolve_and_fetch_credits_parallel
        ⟨fun _ => some [[("media_type", J.s "tv"), ("id", J.i 9)]],
         fun _ _ => some [("episode_run_time", J.arr [J.i 20])]⟩
        ⟨[(search_cache_key "s" none,
           [("media_type", J.s "tv"), ("id", J.i 9)])],
         [(("tv", 9),
           [("episode_run_time", J.arr [J.i 20]),
            ("_media_type", J.s "tv"), ("_normalized_runtime", J.i 20)])],
         0, 0⟩ [("s", none)]
      = Except.ok
          ([[("episode_run_time", J.arr [J.i 20]),
             ("_media_type", J.s "tv"), ("_normalized_runtime", J.i 20)]],
           [],
           ⟨[(search_cache_key "s" none,
              [("media_type", J.s "tv"), ("id", J.i 9)])],
            [(("tv", 9),
              [("episode_run_time", J.arr [J.i 20]),
               ("_media_type", J.s "tv"), ("_normalized_runtime", J.i 20)])],
            0, 0⟩) := by
  exact warm_cache_second_run_identical_no_calls
    ⟨fun _ => some [[("media_type", J.s "tv"), ("id", J.i 9)]],
     fun _ _ => some [("episode_run_time", J.arr [J.i 20])]⟩
    [("s", none)]
    [[("episode_run_time", J.arr [J.i 20]),
      ("_media_type", J.s "tv"), ("_normalized_runtime", J.i 20)]]
    []
    ⟨[(search_cache_key "s" none,
       [("media_type", J.s "tv"), ("id", J.i 9)])],
     [(("tv", 9),
       [("episode_run_time", J.arr [J.i 20]),
        ("_media_type", J.s "tv"), ("_normalized_runtime", J.i 20)])],
     1, 1⟩ rfl

/-! ## C9 — two units racing to resolve the same uncached key

The worker's resolve section (src/tmdb.py:183-196) holds the mutex only for
the read of line 184 and again for the write of line 195-196; the remote
search of lines 187-188 runs with the lock released.  The small-step model
below interleaves two units at the granularity of those atomic regions. -/

/-- The entry a unit computes and writes for `(title, year)` on a cache
miss: the no-match sentinel, or the picked `(media_type, id)`.  With a
deterministic oracle both racing units compute this same entry. -/
def resolved_entry (env : NetEnv) (title : String) (year : Option Int) :
    Except WErr Obj :=
  match env.search title with
  | none => Except.error WErr.transport
  | some rs =>
      match pick_best_result (rs.filter is_movie_or_tv) year with
      | Except.error e => Except.error e
      | Except.ok none => Except.ok (mk_entry J.null 0)
      | Except.ok (some (mtJ, i)) => Except.ok (mk_entry mtJ i)

/-- A worker that misses leaves exactly the resolved entry in the search
cache — the fact tying `resolved_entry` to the code. -/
theorem worker_miss_writes_resolved_entry (env : NetEnv) (st : St)
    (t : String) (y : Option Int) (e : Obj)
    (hc : alget st.search_cache (search_cache_key t y) = none)
    (he : resolved_entry env t y = Except.ok e) :
    ∀ o st', worker env st t y = Except.ok (o, st') →
      alget st'.search_cache (search_cache_key t y) = some e := by
  intro o st' h
  rw [worker_missed env st t y hc] at h
  unfold resolved_entry at he
  cases hsearch : env.search t with
  | none => rw [hsearch] at he; exact Except.noConfusion he
  | some rs =>
      simp only [hsearch] at he
      simp only [show search_multi env st t =
          Except.ok (rs.filter is_movie_or_tv, st.bumpSearch)
        from by simp [search_multi, hsearch]] at h
      cases hpick : pick_best_result (rs.filter is_movie_or_tv) y with
      | error e' =>
          rw [hpick] at he
          exact Except.noConfusion he
      | ok popt =>
          simp only [hpick] at h he
          cases popt with
          | none =>
              injection he with he'
              subst he'
              have h2 : Except.ok (ε := WErr) (Outcome.no_match t y,
                  (st.bumpSearch).withSC
                    (alset (st.bumpSearch).search_cache
                      (search_cache_key t y) (mk_entry J.null 0)))
                  = Except.ok (o, st') := h
              simp only [Except.ok.injEq, Prod.mk.injEq] at h2
              rw [← h2.2]
              show alget (alset st.search_cache (search_cache_key t y)
                (mk_entry J.null 0)) (search_cache_key t y) = _
              rw [alget_alset, if_pos rfl]
          | some p =>
              obtain ⟨mtJ, i⟩ := p
              injection he with he'
              subst he'
              have h2 : after_resolve env
                  ((st.bumpSearch).withSC
                    (alset (st.bumpSearch).search_cache
                      (search_cache_key t y) (mk_entry mtJ i)))
                  t y mtJ i = Except.ok (o, st') := h
              rw [after_resolve_sc env _ t y mtJ i o st' h2]
              show alget (alset st.search_cache (search_cache_key t y)
                (mk_entry mtJ i)) (search_cache_key t y) = _
              rw [alget_alset, if_pos rfl]

/-- Phase of one unit's resolve section: before the locked read; after the
read (carrying what it saw); after the unlocked remote search; finished
(recording whether it wrote the cache). -/
inductive WPhase where
  | start : WPhase
  | got : Option Obj → WPhase
  | searched : WPhase
  | done : Bool → WPhase

/-- Shared state of two units racing on one key: the cache binding at that
key, the number of remote searches performed, and both phases. -/
structure Race where
  cache : Option Obj
  calls : Nat
  w1 : WPhase
  w2 : WPhase

/-- One atomic step of a single unit, `e` being the entry it would write. -/
def wstep (e : Obj) (cache : Option Obj) (calls : Nat) :
    WPhase → Option Obj × Nat × WPhase
  | WPhase.start => (cache, calls, WPhase.got cache)
  | WPhase.got none => (cache, calls + 1, WPhase.searched)
  | WPhase.got (some _) => (cache, calls, WPhase.done false)
  | WPhase.searched => (some e, calls, WPhase.done true)
  | WPhase.done b => (cache, calls, WPhase.done b)

/-- Scheduler step: `true` steps the first unit, `false` the second. -/
def rstep (e : Obj) (r : Race) (which : Bool) : Race :=
  if which then
    let s := wstep e r.cache r.calls r.w1
    ⟨s.1, s.2.1, s.2.2, r.w2⟩
  else
    let s := wstep e r.cache r.calls r.w2
    ⟨s.1, s.2.1, r.w1, s.2.2⟩

/-- Run a schedule of interleaved steps. -/
def run_race (e : Obj) : List Bool → Race → Race
  | [], r => r
  | b :: rest, r => run_race e rest (rstep e r b)

/-- Both units poised before their locked read; key uncached. -/
def race_init : Race := ⟨none, 0, WPhase.start, WPhase.start⟩

/-- Has this unit performed its remote search (and not made it vanish)? -/
def searched_ind : WPhase → Nat
  | WPhase.searched => 1
  | WPhase.done true => 1
  | _ => 0

/-- Reachability invariant of the race. -/
def race_inv (e : Obj) (r : Race) : Prop :=
  (r.cache = none ∨ r.cache = some e) ∧
  r.calls = searched_ind r.w1 + searched_ind r.w2 ∧
  (∀ c, r.w1 = WPhase.got (some c) → c = e ∧ r.cache = some e) ∧
  (∀ c, r.w2 = WPhase.got (some c) → c = e ∧ r.cache = some e) ∧
  (r.w1 = WPhase.done false → r.cache = some e) ∧
  (r.w2 = WPhase.done false → r.cache = some e) ∧
  (r.w1 = WPhase.done true → r.cache = some e) ∧
  (r.w2 = WPhase.done true → r.cache = some e) ∧
  (r.cache = some e →
    r.w1 = WPhase.done true ∨ r.w2 = WPhase.done true)

/-- One interleaved step preserves the race invariant. -/
theorem race_inv_step (e : Obj) (r : Race) (b : Bool)
    (h : race_inv e r) : race_inv e (rstep e r b) := by
  obtain ⟨cache, calls, w1, w2⟩ := r
  obtain ⟨i1, i2, i3, i4, i5, i6, i7, i8, i9⟩ := h
  cases b with
  | true =>
      cases w1 with
      | start =>
          show race_inv e ⟨cache, calls, WPhase.got cache, w2⟩
          refine ⟨i1, by simpa [searched_ind] using i2, ?_, i4, ?_, i6, ?_,
            i8, ?_⟩
          · intro c hc
            injection hc with h'
            subst h'
            rcases i1 with h1 | h1
            · exact Option.noConfusion h1
            · injection h1 with h2
              exact ⟨h2, by rw [h2]⟩
          · intro h'
            exact WPhase.noConfusion h'
          · intro h'
            exact WPhase.noConfusion h'
          · intro hce
            rcases i9 hce with h' | h'
            · exact WPhase.noConfusion h'
            · exact Or.inr h'
      | got copt =>
          cases copt with
          | none =>
              show race_inv e ⟨cache, calls + 1, WPhase.searched, w2⟩
              refine ⟨i1, ?_, ?_, i4, ?_, i6, ?_, i8, ?_⟩
              · have i2' : calls = 0 + searched_ind w2 := i2
                show calls + 1 = 1 + searched_ind w2
                omega
              · intro c hc
                exact WPhase.noConfusion hc
              · intro h'
                exact WPhase.noConfusion h'
              · intro h'
                exact WPhase.noConfusion h'
              · intro hce
                rcases i9 hce with h' | h'
                · exact WPhase.noConfusion h'
                · exact Or.inr h'
          | some c0 =>
              obtain ⟨hc0, hcache⟩ := i3 c0 rfl
              show race_inv e ⟨cache, calls, WPhase.done false, w2⟩
              refine ⟨i1, by simpa [searched_ind] using i2, ?_, i4, ?_, i6,
                ?_, i8, ?_⟩
              · intro c hc
                exact WPhase.noConfusion hc
              · intro _
                exact hcache
              · intro h'
                exact absurd h' (by simp)
              · intro hce
                rcases i9 hce with h' | h'
                · exact WPhase.noConfusion h'
                · exact Or.inr h'
      | searched =>
          show race_inv e ⟨some e, calls, WPhase.done true, w2⟩
          refine ⟨Or.inr rfl, by simpa [searched_ind] using i2, ?_, ?_,
            fun _ => rfl, fun _ => rfl, fun _ => rfl, fun _ => rfl,
            fun _ => Or.inl rfl⟩
          · intro c hc
            exact WPhase.noConfusion hc
          · intro c hc
            obtain ⟨h1, _⟩ := i4 c hc
            exact ⟨h1, rfl⟩
      | done b0 =>
          show race_inv e ⟨cache, calls, WPhase.done b0, w2⟩
          exact ⟨i1, i2, i3, i4, i5, i6, i7, i8, i9⟩
  | false =>
      cases w2 with
      | start =>
          show race_inv e ⟨cache, calls, w1, WPhase.got cache⟩
          refine ⟨i1, by simpa [searched_ind] using i2, i3, ?_, i5, ?_, i7,
            ?_, ?_⟩
          · intro c hc
            injection hc with h'
            subst h'
            rcases i1 with h1 | h1
            · exact Option.noConfusion h1
            · injection h1 with h2
              exact ⟨h2, by rw [h2]⟩
          · intro h'
            exact WPhase.noConfusion h'
          · intro h'
            exact WPhase.noConfusion h'
          · intro hce
            rcases i9 hce with h' | h'
            · exact Or.inl h'
            · exact WPhase.noConfusion h'
      | got copt =>
          cases copt with
          | none =>
              show race_inv e ⟨cache, calls + 1, w1, WPhase.searched⟩
              refine ⟨i1, ?_, i3, ?_, i5, ?_, i7, ?_, ?_⟩
              · have i2' : calls = searched_ind w1 + 0 := i2
                show calls + 1 = searched_ind w1 + 1
                omega
              · intro c hc
                exact WPhase.noConfusion hc
              · intro h'
                exact WPhase.noConfusion h'
              · intro h'
                exact WPhase.noConfusion h'
              · intro hce
                rcases i9 hce with h' | h'
                · exact Or.inl h'
                · exact WPhase.noConfusion h'
          | some c0 =>
              obtain ⟨hc0, hcache⟩ := i4 c0 rfl
              show race_inv e ⟨cache, calls, w1, WPhase.done false⟩
              refine ⟨i1, by simpa [searched_ind] using i2, i3, ?_, i5, ?_,
                i7, ?_, ?_⟩
              · intro c hc
                exact WPhase.noConfusion hc
              · intro _
                exact hcache
              · intro h'
                exact absurd h' (by simp)
              · intro hce
                rcases i9 hce with h' | h'
                · exact Or.inl h'
                · exact WPhase.noConfusion h'
      | searched =>
          show race_inv e ⟨some e, calls, w1, WPhase.done true⟩
          refine ⟨Or.inr rfl, by simpa [searched_ind] using i2, ?_, ?_,
            fun _ => rfl, fun _ => rfl, fun _ => rfl, fun _ => rfl,
            fun _ => Or.inr rfl⟩
          · intro c hc
            obtain ⟨h1, _⟩ := i3 c hc
            exact ⟨h1, rfl⟩
          · intro c hc
            exact WPhase.noConfusion hc
      | done b0 =>
          show race_inv e ⟨cache, calls, w1, WPhase.done b0⟩
          exact ⟨i1, i2, i3, i4, i5, i6, i7, i8, i9⟩

/-- The race invariant holds after any schedule. -/
theorem run_race_inv (e : Obj) (sched : List Bool) :
    ∀ r : Race, race_inv e r → race_inv e (run_race e sched r) := by
  induction sched with
  | nil => intro r h; exact h
  | cons b rest ih => intro r h; exact ih _ (race_inv_step e r b h)

theorem race_init_inv (e : Obj) : race_inv e race_init := by
  refine ⟨Or.inl rfl, rfl, ?_, ?_, ?_, ?_, ?_, ?_, ?_⟩
  · intro c hc
    exact WPhase.noConfusion hc
  · intro c hc
    exact WPhase.noConfusion hc
  · intro h'
    exact WPhase.noConfusion h'
  · intro h'
    exact WPhase.noConfusion h'
  · intro h'
    exact WPhase.noConfusion h'
  · intro h'
    exact WPhase.noConfusion h'
  · intro hce
    exact Option.noConfusion hce

/-- C9 counterexample: the schedule where both units pass their locked read
before either performs the search makes both miss and both call the remote
search — two remote search calls in total, contradicting "exactly one".
The entry both write is the one `resolved_entry` computes from a concrete
oracle. -/
theorem same_key_double_search_schedule :
    (run_race (mk_entry (J.s "movie") 1)
        [true, false, true, false, true, false] race_init).calls = 2 ∧
    (run_race (mk_entry (J.s "movie") 1)
        [true, false, true, false, true, false] race_init).w1
      = WPhase.done true ∧
    (run_race (mk_entry (J.s "movie") 1)
        [true, false, true, false, true, false] race_init).w2
      = WPhase.done true ∧
    resolved_entry
        ⟨fun _ => some [[("media_type", J.s "movie"), ("id", J.i 1)]],
         fun _ _ => none⟩ "t" none
      = Except.ok (mk_entry (J.s "movie") 1) :=
  ⟨rfl, rfl, rfl, rfl⟩

/-- C9 (amended): when two units race to resolve the same uncached key, any
completing interleaving leaves the cache with the single consistent entry
both compute (no conflicting or duplicate binding), and the total number of
remote search calls is one or two: one when one unit's resolve section runs
before the other's read, two when the reads interleave before either write
— the mutex covers the read and the write separately, not the
read-search-write sequence, so "exactly one search" is not guaranteed. -/
theorem same_key_race_single_entry_bounded (e : Obj) (sched : List Bool)
    (b1 b2 : Bool)
    (h1 : (run_race e sched race_init).w1 = WPhase.done b1)
    (h2 : (run_race e sched race_init).w2 = WPhase.done b2) :
    (run_race e sched race_init).cache = some e ∧
    1 ≤ (run_race e sched race_init).calls ∧
    (run_race e sched race_init).calls ≤ 2 := by
  obtain ⟨i1, i2, i3, i4, i5, i6, i7, i8, i9⟩ :=
    run_race_inv e sched race_init (race_init_inv e)
  have hcache : (run_race e sched race_init).cache = some e := by
    cases b1 with
    | true => exact i7 h1
    | false => exact i5 h1
  refine ⟨hcache, ?_, ?_⟩
  · rw [h1, h2] at i2
    cases b1 with
    | true =>
        simp [searched_ind] at i2
        omega
    | false =>
        cases b2 with
        | true =>
            simp [searched_ind] at i2
            omega
        | false =>
            exfalso
            rcases i9 hcache with h' | h'
            · rw [h1] at h'
              injection h' with hb
              exact Bool.noConfusion hb
            · rw [h2] at h'
              injection h' with hb
              exact Bool.noConfusion hb
  · rw [h1, h2] at i2
    cases b1 with
    | true =>
        cases b2 with
        | true => simp [searched_ind] at i2; omega
        | false => simp [searched_ind] at i2; omega
    | false =>
        cases b2 with
        | true => simp [searched_ind] at i2; omega
        | false => simp [searched_ind] at i2; omega

/-- C9 witness: under the schedule where the first unit finishes its whole
resolve section before the second unit reads, both complete, the cache
holds the single entry, and only one remote search happened. -/
theorem same_key_race_single_entry_bounded_witness :
    (run_race (mk_entry (J.s "movie") 1) [true, true, true, false, false]
        race_init).cache = some (mk_entry (J.s "movie") 1) ∧
    1 ≤ (run_race (mk_entry (J.s "movie") 1) [true, true, true, false, false]
        race_init).calls ∧
    (run_race (mk_entry (J.s "movie") 1) [true, true, true, false, false]
        race_init).calls ≤ 2 :=
  same_key_race_single_entry_bounded (mk_entry (J.s "movie") 1)
    [true, true, true, false, false] true false rfl rfl
